import Mathlib

/-!
# Verification of the OIDC login flow of `path_oidc.go`

This file gives a shallow embedding, in Lean 4, of the OIDC authentication
flow implemented by `path_oidc.go` of the `vault-plugin-auth-jwt` repository:
the request-state store, the three entry points (`authURL`, `pathCallback`,
`pathPoll`, plus the form-post helper `pathCallbackPost`), the redirect-URI
validator `validRedirect` and the mount resolver `parseMount`.

External collaborators (the OIDC provider client, role/config storage, the
identity translator, bound-claims validation) are modelled as oracle fields of
an `Env` structure: the embedding is faithful to the *control flow and state
effects* of `path_oidc.go`, with each external call's outcome supplied by the
oracle.

`validRedirect` depends on Go's `net/url` package.  A faithful executable
fragment of `net/url` (`url.Parse`, `URL.Hostname`, `URL.String`) is embedded
below, covering the inputs that arise in redirect-URI validation; the
simplifications relative to `net/url` (escape sequences are validated but kept
raw rather than being decoded and re-encoded in paths/fragments, and IPv6 zone
handling is omitted) are noted at each definition.

All machine strings are Lean `String`s manipulated through their `List Char`
representation so that every definition evaluates by `decide`/`rfl`.
-/

set_option maxRecDepth 10000

/-! ## Character / list-of-character utilities (model of Go `strings` helpers) -/

/-- Control byte test used by `net/url`: C0 controls and DEL. -/
def isCtl (c : Char) : Bool :=
  c.toNat < 0x20 || c.toNat == 0x7f

def isAlphaChar (c : Char) : Bool :=
  (0x41 ≤ c.toNat && c.toNat ≤ 0x5a) || (0x61 ≤ c.toNat && c.toNat ≤ 0x7a)

def isDigitChar (c : Char) : Bool :=
  0x30 ≤ c.toNat && c.toNat ≤ 0x39

def isAlphaNumChar (c : Char) : Bool :=
  isAlphaChar c || isDigitChar c

def isHexDigitChar (c : Char) : Bool :=
  isDigitChar c || (0x41 ≤ c.toNat && c.toNat ≤ 0x46) || (0x61 ≤ c.toNat && c.toNat ≤ 0x66)

/-- Numeric value of a hex digit (0 for non-hex input, which is never used). -/
def hexVal (c : Char) : Nat :=
  if isDigitChar c then c.toNat - 0x30
  else if 0x41 ≤ c.toNat && c.toNat ≤ 0x46 then c.toNat - 0x41 + 10
  else if 0x61 ≤ c.toNat && c.toNat ≤ 0x66 then c.toNat - 0x61 + 10
  else 0

/-- Split at the first occurrence of `sep`, dropping the separator: returns
`(before, after, found)`.  Models Go `strings.Cut` / `split(s, sep, true)`. -/
def breakFirst (sep : Char) : List Char → List Char × List Char × Bool
  | [] => ([], [], false)
  | c :: rest =>
    if c = sep then ([], rest, true)
    else
      let r := breakFirst sep rest
      (c :: r.1, r.2.1, r.2.2)

/-- Split at the first occurrence of `sep`, keeping the separator with the
tail: models Go `split(s, sep, false)`. -/
def breakFirstKeep (sep : Char) : List Char → List Char × List Char
  | [] => ([], [])
  | c :: rest =>
    if c = sep then ([], c :: rest)
    else
      let r := breakFirstKeep sep rest
      (c :: r.1, r.2)

/-- Index of the last occurrence of `c`.  Models Go `strings.LastIndexByte`. -/
def lastIndexOf : List Char → Char → Option Nat
  | [], _ => none
  | c :: rest, t =>
    match lastIndexOf rest t with
    | some i => some (i + 1)
    | none => if c = t then some 0 else none

/-- Whether `pat` is an initial segment of the second list
(Go `strings.HasPrefix`). -/
def hasPfxL : List Char → List Char → Bool
  | [], _ => true
  | _ :: _, [] => false
  | p :: ps, c :: cs => p == c && hasPfxL ps cs

/-- Split on every occurrence of `sep` (Go `strings.Split`); splitting the
empty list yields `[[]]`, as in Go. -/
def splitAllChar (sep : Char) : List Char → List (List Char)
  | [] => [[]]
  | c :: rest =>
    if c = sep then [] :: splitAllChar sep rest
    else
      match splitAllChar sep rest with
      | s :: ss => (c :: s) :: ss
      | [] => [[c]]

/-- ASCII lower-casing of a scheme (Go lower-cases the scheme on parse). -/
def toLowerList (cs : List Char) : List Char :=
  cs.map Char.toLower

/-- First index at which `pat` occurs as a contiguous sublist
(Go `strings.Index`). -/
def findSub (pat : List Char) : List Char → Option Nat
  | [] => if pat.isEmpty then some 0 else none
  | c :: rest =>
    if hasPfxL pat (c :: rest) then some 0
    else (findSub pat rest).map (· + 1)

/-- Go `strings.Replace(s, pat, new, 1)`: replace the first occurrence only. -/
def replaceOnce (s pat new : String) : String :=
  match findSub pat.data s.data with
  | none => s
  | some i => String.mk (s.data.take i ++ new.data ++ s.data.drop (i + pat.data.length))

/-- Go `strutil.StrListContains(haystack, needle)`: exact string membership. -/
def strListContains (haystack : List String) (needle : String) : Bool :=
  haystack.contains needle

/-! ## A faithful executable fragment of Go `net/url` -/

/-- Model of Go's `url.URL` restricted to the fields `path_oidc.go` touches.
`opq` models `URL.Opaque`; `user` keeps the raw userinfo text (Go stores a
decoded `Userinfo`, re-encoded on `String()`; raw round-tripping agrees on
all valid inputs that are already canonically escaped). -/
structure GoURL where
  scheme : String
  opq : String
  user : String
  host : String
  path : String
  rawQuery : String
  forceQuery : Bool
  fragment : String
  omitHost : Bool
deriving DecidableEq

/-- Result of Go `getScheme`. -/
inductive SchemeRes where
  | err
  | noScheme
  | found (scheme : List Char) (rest : List Char)
deriving DecidableEq

/-- Go `getScheme`: scan for `scheme:`; a `:` at position 0 is the
"missing protocol scheme" error; a digit/`+`/`-`/`.` at position 0, or any
other character anywhere, means the URL has no scheme. -/
def getSchemeAux (acc : List Char) : List Char → SchemeRes
  | [] => .noScheme
  | c :: rest =>
    if isAlphaChar c then getSchemeAux (acc ++ [c]) rest
    else if isDigitChar c || c == '+' || c == '-' || c == '.' then
      if acc.isEmpty then .noScheme else getSchemeAux (acc ++ [c]) rest
    else if c = ':' then
      if acc.isEmpty then .err else .found (toLowerList acc) rest
    else .noScheme

/-- Go `validOptionalPort`: empty, or `:` followed by digits only. -/
def validOptionalPort (cs : List Char) : Bool :=
  match cs with
  | [] => true
  | c :: rest => c == ':' && rest.all isDigitChar

/-- Characters Go's `shouldEscape(c, encodeHost)` leaves unescaped: ASCII
alphanumerics, RFC 3986 unreserved marks, sub-delims, and `:[]<>"`. -/
def hostCharOk (c : Char) : Bool :=
  isAlphaNumChar c ||
  [Char.ofNat 45, Char.ofNat 95, Char.ofNat 46, Char.ofNat 126,  -- - _ . ~
   Char.ofNat 33, Char.ofNat 36, Char.ofNat 38, Char.ofNat 39,   -- ! $ & apostrophe
   Char.ofNat 40, Char.ofNat 41, Char.ofNat 42, Char.ofNat 43,   -- ( ) * +
   Char.ofNat 44, Char.ofNat 59, Char.ofNat 61, Char.ofNat 58,   -- , ; = :
   Char.ofNat 91, Char.ofNat 93, Char.ofNat 60, Char.ofNat 62,   -- [ ] < >
   Char.ofNat 34].contains c                                      -- double quote

/-- Go `unescape(host, encodeHost)`: percent-decode, rejecting malformed
escapes and (raw or decoded) ASCII characters that must be escaped in a
host.  IPv6 zone (`%25`) special-casing is omitted. -/
def decodeHost : List Char → Option (List Char)
  | [] => some []
  | '%' :: rest =>
    match rest with
    | a :: b :: rest2 =>
      if isHexDigitChar a && isHexDigitChar b then
        let v := hexVal a * 16 + hexVal b
        if v < 0x80 && !hostCharOk (Char.ofNat v) then none
        else (decodeHost rest2).map (Char.ofNat v :: ·)
      else none
    | _ => none
  | c :: rest =>
    if c.toNat < 0x80 && !hostCharOk c then none
    else (decodeHost rest).map (c :: ·)

/-- Validity of percent escapes (used for paths and fragments, where Go's
`unescape` only rejects malformed `%XX`). -/
def validEscapes : List Char → Bool
  | [] => true
  | '%' :: rest =>
    match rest with
    | a :: b :: rest2 => isHexDigitChar a && isHexDigitChar b && validEscapes rest2
    | _ => false
  | _ :: rest => validEscapes rest

/-- Go `parseHost`: bracketed IPv6 hosts need a closing `]` and a valid
optional port; otherwise everything after the last `:` must be a valid
optional port; then the host is unescaped with host-mode checks. -/
def parseHostCore (cs : List Char) : Option (List Char) :=
  if cs.head? = some '[' then
    match lastIndexOf cs ']' with
    | none => none
    | some i =>
      if validOptionalPort (cs.drop (i + 1)) then decodeHost cs else none
  else
    match lastIndexOf cs ':' with
    | some i => if validOptionalPort (cs.drop i) then decodeHost cs else none
    | none => decodeHost cs

/-- Characters allowed in userinfo by Go `validUserinfo`. -/
def userinfoCharOk (c : Char) : Bool :=
  isAlphaNumChar c ||
  [Char.ofNat 45, Char.ofNat 46, Char.ofNat 95, Char.ofNat 58,   -- - . _ :
   Char.ofNat 126, Char.ofNat 33, Char.ofNat 36, Char.ofNat 38,  -- ~ ! $ &
   Char.ofNat 39, Char.ofNat 40, Char.ofNat 41, Char.ofNat 42,   -- apostrophe ( ) *
   Char.ofNat 43, Char.ofNat 44, Char.ofNat 59, Char.ofNat 61,   -- + , ; =
   Char.ofNat 37, Char.ofNat 64].contains c                      -- % @

/-- Go `parseAuthority`: userinfo (before the last `@`) is validated and kept
raw, the remainder is parsed as the host.  Returns `(user, host)`. -/
def parseAuthority (authority : List Char) : Option (List Char × List Char) :=
  match lastIndexOf authority '@' with
  | none =>
    (parseHostCore authority).map (fun h => ([], h))
  | some i =>
    let userinfo := authority.take i
    if userinfo.all userinfoCharOk then
      (parseHostCore (authority.drop (i + 1))).map (fun h => (userinfo, h))
    else none

/-- The authority/path step of Go `parse` (with `viaRequest = false`):
an authority is consumed when the rest begins with `//` (and, for scheme-less
URLs, does not begin with `///`); otherwise the rest is the path.
`OmitHost` is set for scheme-ful URLs whose path begins with a single `/`. -/
def authorityOrPath (scheme : String) (rest rawQuery : List Char) (forceQuery : Bool) :
    Option GoURL :=
  if (scheme ≠ "" ∨ hasPfxL ['/', '/', '/'] rest = false) ∧ hasPfxL ['/', '/'] rest = true then
    match breakFirstKeep '/' (rest.drop 2) with
    | (authority, rest2) =>
      match parseAuthority authority with
      | none => none
      | some (user, host) =>
        if validEscapes rest2 then
          some { scheme := scheme, opq := "", user := String.mk user,
                 host := String.mk host, path := String.mk rest2,
                 rawQuery := String.mk rawQuery, forceQuery := forceQuery,
                 fragment := "", omitHost := false }
        else none
  else
    if validEscapes rest then
      some { scheme := scheme, opq := "", user := "", host := "",
             path := String.mk rest, rawQuery := String.mk rawQuery,
             forceQuery := forceQuery, fragment := "",
             omitHost := decide (scheme ≠ "") && hasPfxL ['/'] rest }
    else none

/-- The query-splitting step of Go `parse`: a single trailing `?` sets
`ForceQuery`; otherwise the query is everything after the first `?`. -/
def querySplit (rest0 : List Char) : List Char × List Char × Bool :=
  if rest0.getLast? = some '?' ∧ rest0.count '?' = 1 then
    (rest0.dropLast, [], true)
  else
    let r := breakFirst '?' rest0
    (r.1, r.2.1, false)

/-- The body of Go `parse` after scheme extraction: query split, then the
opaque case (scheme-ful, rest not starting with `/`), the scheme-less
first-segment-colon error, and the authority/path step. -/
def parseAfterScheme (scheme : String) (rest0 : List Char) : Option GoURL :=
  match querySplit rest0 with
  | (rest, rawQuery, forceQuery) =>
    if rest.head? = some '/' then authorityOrPath scheme rest rawQuery forceQuery
    else if scheme ≠ "" then
      some { scheme := scheme, opq := String.mk rest, user := "", host := "",
             path := "", rawQuery := String.mk rawQuery,
             forceQuery := forceQuery, fragment := "", omitHost := false }
    else if ((breakFirst '/' rest).1.contains ':') then none
    else authorityOrPath scheme rest rawQuery forceQuery

/-- Model of Go `url.Parse`: split off the fragment at the first `#`, reject
control characters, extract the scheme, and parse the remainder.  Returns
`none` exactly where `url.Parse` returns an error. -/
def goURLParse (s : String) : Option GoURL :=
  match breakFirst '#' s.data with
  | (beforeFrag, fragCs, _) =>
    if beforeFrag.any isCtl then none
    else
      let parsed :=
        match getSchemeAux [] beforeFrag with
        | .err => none
        | .noScheme => parseAfterScheme "" beforeFrag
        | .found sch rest => parseAfterScheme (String.mk sch) rest
      match parsed with
      | none => none
      | some u =>
        if validEscapes fragCs then some { u with fragment := String.mk fragCs }
        else none

/-- Go `splitHostPort` (used by `URL.Hostname`): strip a valid optional port
after the last `:`, then strip surrounding brackets. -/
def splitHostPort (hostPort : List Char) : List Char × List Char :=
  let hp :=
    match lastIndexOf hostPort ':' with
    | some i =>
      if validOptionalPort (hostPort.drop i) then
        (hostPort.take i, hostPort.drop (i + 1))
      else (hostPort, [])
    | none => (hostPort, [])
  if hp.1.head? = some '[' ∧ hp.1.getLast? = some ']' then
    ((hp.1.drop 1).dropLast, hp.2)
  else hp

/-- Go `URL.Hostname()`. -/
def urlHostname (u : GoURL) : String :=
  String.mk (splitHostPort u.host.data).1

/-- Go `URL.String()`: reconstruct the URL from its components.  Escapes are
kept raw (see the module comment). -/
def urlString (u : GoURL) : String :=
  (if u.scheme ≠ "" then u.scheme ++ ":" else "") ++
  (if u.opq ≠ "" then u.opq
   else
     (if u.scheme ≠ "" ∨ u.host ≠ "" ∨ u.user ≠ "" then
        (if u.omitHost ∧ u.host = "" ∧ u.user = "" then ""
         else
           (if u.host ≠ "" ∨ u.path ≠ "" ∨ u.user ≠ "" then "//" else "") ++
           (if u.user ≠ "" then u.user ++ "@" else "") ++ u.host)
      else "") ++
     (if u.path ≠ "" ∧ hasPfxL ['/'] u.path.data = false ∧ u.host ≠ "" then "/" else "") ++
     u.path) ++
  (if u.forceQuery ∨ u.rawQuery ≠ "" then "?" ++ u.rawQuery else "") ++
  (if u.fragment ≠ "" then "#" ++ u.fragment else "")

/-! ## Query values (`url.Values`), for the namespace-in-state handling -/

/-- Go `QueryUnescape`: `+` means space, `%XX` decodes, malformed escapes are
errors. -/
def queryUnescape : List Char → Option (List Char)
  | [] => some []
  | '%' :: rest =>
    match rest with
    | a :: b :: rest2 =>
      if isHexDigitChar a && isHexDigitChar b then
        (queryUnescape rest2).map (Char.ofNat (hexVal a * 16 + hexVal b) :: ·)
      else none
    | _ => none
  | '+' :: rest => (queryUnescape rest).map (' ' :: ·)
  | c :: rest => (queryUnescape rest).map (c :: ·)

/-- One `key=value` piece of a query string; pieces that are empty, contain a
semicolon, or fail to unescape are skipped (Go `ParseQuery` records the error
but `URL.Query()` discards it). -/
def parseQueryPiece (piece : List Char) : Option (String × String) :=
  if piece.isEmpty then none
  else if piece.contains ';' then none
  else
    match breakFirst '=' piece with
    | (k, v, _) =>
      match queryUnescape k, queryUnescape v with
      | some k2, some v2 => some (String.mk k2, String.mk v2)
      | _, _ => none

/-- Go `url.Values` of a raw query, as an ordered list of key/value pairs
(`URL.Query()` behavior: errors discarded, bad pairs skipped). -/
def parseQueryLax (q : List Char) : List (String × String) :=
  (splitAllChar '&' q).filterMap parseQueryPiece

/-- Go `Values.Get`: first value for the key, `""` if absent. -/
def queryGet (vals : List (String × String)) (key : String) : String :=
  match vals.find? (fun kv => kv.1 == key) with
  | some kv => kv.2
  | none => ""

/-- Go `Values.Del`. -/
def queryDel (vals : List (String × String)) (key : String) : List (String × String) :=
  vals.filter (fun kv => kv.1 ≠ key)

/-- Go `QueryEscape`: unreserved characters kept, space becomes `+`, the rest
percent-encoded in uppercase hex. -/
def queryEscapeChar (c : Char) : List Char :=
  if isAlphaNumChar c ||
     [Char.ofNat 45, Char.ofNat 95, Char.ofNat 46, Char.ofNat 126].contains c then [c]
  else if c = ' ' then ['+']
  else
    let hex := fun (n : Nat) => if n < 10 then Char.ofNat (0x30 + n) else Char.ofNat (0x41 + n - 10)
    ['%', hex (c.toNat / 16 % 16), hex (c.toNat % 16)]

def queryEscape (s : String) : String :=
  String.mk (s.data.flatMap queryEscapeChar)

/-- Byte-wise string ordering used by Go's `sort.Strings` in `Values.Encode`. -/
def strLtL : List Char → List Char → Bool
  | [], [] => false
  | [], _ :: _ => true
  | _ :: _, [] => false
  | a :: as, b :: bs =>
    if a.toNat < b.toNat then true
    else if b.toNat < a.toNat then false
    else strLtL as bs

def insSorted (x : String) : List String → List String
  | [] => [x]
  | y :: ys => if strLtL x.data y.data then x :: y :: ys else y :: insSorted x ys

def sortStrings : List String → List String
  | [] => []
  | x :: xs => insSorted x (sortStrings xs)

/-- Go `Values.Encode`: keys sorted, each key's values in order of
appearance, every key and value query-escaped. -/
def queryEncode (vals : List (String × String)) : String :=
  let keys := (sortStrings (vals.map (·.1))).dedup
  String.intercalate "&"
    ((keys.map (fun k =>
        (vals.filter (fun kv => kv.1 == k)).map
          (fun kv => queryEscape k ++ "=" ++ queryEscape kv.2))).flatten)

/-! ## Domain constants and data (from `path_oidc.go` and its spec) -/

/-- UI-matchable error prefixes of `path_oidc.go`. -/
def errLoginFailed : String := "Vault login failed."

def errNoResponse : String := "No response from provider."

def errTokenVerification : String := "Token verification failed."

def errNotOIDCFlow : String := "OIDC login is not configured for this mount"

/-- The sentinel code value of the form-post flow. -/
def noCode : String := "no_code"

/-- The full "expired or missing state" message produced by `pathCallback`,
`pathCallbackPost` and `pathPoll`. -/
def expiredStateMsg : String := errLoginFailed ++ " Expired or missing OAuth state."

/-- Modelled from the spec: the role callback-mode constants.  They are
declared in the role code of this repository (outside `path_oidc.go`); the
spec names exactly the synchronous "client" mode and the asynchronous
"direct" mode. -/
def callbackModeClient : String := "client"

/-- Modelled from the spec: the direct callback mode constant
(see `callbackModeClient`). -/
def callbackModeDirect : String := "direct"

/-- Modelled from the spec: the form-post response mode constant, declared in
the config code of this repository (outside `path_oidc.go`). -/
def responseModeFormPost : String := "form_post"

/-- The fields of `jwtConfig` read by `path_oidc.go`.  `isOIDCFlow` models
`config.authType() == OIDCFlow` and `hasTypeIDToken` / `hasTypeCode` model
`config.hasType(responseTypeIDToken)` / `config.hasType(responseTypeCode)`,
all computed by config code outside `path_oidc.go`. -/
structure JwtConfig where
  isOIDCFlow : Bool
  defaultRole : String
  oidcResponseMode : String
  namespaceInState : Bool
  hasTypeIDToken : Bool
  hasTypeCode : Bool
deriving DecidableEq

/-- The fields of `jwtRole` read by `path_oidc.go` (the struct itself is
declared in role code outside `path_oidc.go`; durations are abstracted to
`Nat`). -/
structure JwtRole where
  callbackMode : String
  allowedRedirectURIs : List String
  tokenBoundCIDRs : List String
  boundSubject : String
  verboseOIDCLogging : Bool
  boundAudiences : List String
  oidcScopes : List String
  maxAge : Nat
  policies : List String
  period : Nat
  numUses : Nat
  ttl : Nat
  maxTTL : Nat
  boundCIDRs : List String
deriving DecidableEq

/-- A JSON-ish claim value: `path_oidc.go` only ever inspects whether a claim
is a string (for `sub`). -/
inductive ClaimVal where
  | str (s : String)
  | num (n : Int)
  | other
deriving DecidableEq

/-- The `map[string]interface{}` of parsed claims, as an association list. -/
abbrev ClaimsMap := List (String × ClaimVal)

/-- First-match lookup (Go map lookup; keys are unique in a Go map). -/
def claimLookup (m : ClaimsMap) (k : String) : Option ClaimVal :=
  match m with
  | [] => none
  | kv :: rest => if kv.1 = k then some kv.2 else claimLookup rest k

/-- Go map update (used for the token metadata map). -/
def upsert (m : List (String × String)) (k v : String) : List (String × String) :=
  match m with
  | [] => [(k, v)]
  | kv :: rest => if kv.1 = k then (k, v) :: rest else kv :: upsert rest k v

/-- An identity alias as produced by `createIdentity`. -/
structure Alias where
  name : String
  metadata : List (String × String)
deriving DecidableEq

/-- The token set returned by `provider.Exchange` (only its ID token is
inspected by `path_oidc.go`; its presence doubles as the token source). -/
structure Tk where
  idToken : String
deriving DecidableEq

/-- The `logical.Auth` credential built at the end of `pathCallback`
(lines 370-389 of `path_oidc.go`). -/
structure AuthData where
  policies : List String
  displayName : String
  period : Nat
  numUses : Nat
  aliass : Alias
  groupAliases : List Alias
  internalDataRole : String
  metadata : List (String × String)
  renewable : Bool
  ttl : Nat
  maxTTL : Nat
  boundCIDRs : List String
deriving DecidableEq

/-- `oidcRequest`: one OIDC authentication flow.  `redirectURL` models the
embedded `oidc.Request`'s redirect URL; the `state` key lives in the store. -/
structure OidcRequest where
  redirectURL : String
  rolename : String
  code : String
  idToken : String
  clientNonce : String
  auth : Option AuthData
deriving DecidableEq

/-- The request store `b.oidcRequests` (a TTL cache; expiry is time-driven
and outside this embedding), as an association list keyed by state. -/
abbrev Store := List (String × OidcRequest)

/-- `b.getOIDCRequest`. -/
def getOIDCRequest (store : Store) (k : String) : Option OidcRequest :=
  match store with
  | [] => none
  | kv :: rest => if kv.1 = k then some kv.2 else getOIDCRequest rest k

/-- `b.setOIDCRequest` / `cache.SetDefault`. -/
def setOIDCRequest (store : Store) (k : String) (r : OidcRequest) : Store :=
  match store with
  | [] => [(k, r)]
  | kv :: rest => if kv.1 = k then (k, r) :: rest else kv :: setOIDCRequest rest k r

/-- `b.deleteOIDCRequest`. -/
def deleteOIDCRequest (store : Store) (k : String) : Store :=
  store.filter (fun kv => kv.1 ≠ k)

/-- Outcomes of the external collaborators of `path_oidc.go` (provider
client, role/config storage, identity translator, bound-claims validator,
CIDR check, randomness of request creation).  Each field is the oracle for
one external call site. -/
structure Env where
  configRes : Except String (Option JwtConfig)
  roleOf : String → Except String (Option JwtRole)
  getProvider : JwtConfig → Except String Unit
  verifyIDToken : String → Except String Unit
  exchange : String → String → Except String Tk
  claimsOf : String → Except String ClaimsMap
  userInfo : String → ClaimsMap → Except String ClaimsMap
  createIdentity : ClaimsMap → JwtRole → Bool → Except String (Alias × List Alias)
  validateBoundClaims : JwtRole → ClaimsMap → Except String Unit
  populateTokenAuth : JwtRole → AuthData → AuthData
  remoteAddr : Option String
  cidrOk : String → List String → Bool
  newCodeVerifier : Except String Unit
  newRequestState : Except String String
  authURLGen : String → Except String String

/-- The HTML bodies served by the callback paths, symbolically
(`errorHTML`, `formpostHTML`, `successHTML` are template renderings defined
outside `path_oidc.go`). -/
inductive HtmlBody where
  | errorPage (title msg : String)
  | formpostPage (mount code state : String)
  | successPage
deriving DecidableEq

/-- The response of `pathCallback` / `pathCallbackPost` / `pathPoll`:
a `logical.ErrorResponse`, an internal `(nil, err)` return,
`logical.ErrPermissionDenied`, an HTTP/HTML response, a bare status response,
or a response carrying `resp.Auth`. -/
inductive CallbackResult where
  | errResp (msg : String)
  | internalErr (msg : String)
  | permDenied
  | html (status : Nat) (body : HtmlBody)
  | statusResp (status : Nat)
  | success (auth : AuthData)
deriving DecidableEq

/-- `loginFailedResponse` of `path_oidc.go`. -/
def loginFailedResponse (useHttp : Bool) (msg : String) : CallbackResult :=
  if useHttp = false then .errResp (errLoginFailed ++ " " ++ msg)
  else .html 400 (.errorPage errLoginFailed msg)

/-- `parseMount`'s scan: Go iterates `i` while `i+2 < len(parts)` and returns
`parts[i+2]` at the first `parts[i] == "v1" && parts[i+1] == "auth"`. -/
def findMount : List String → String
  | [] => ""
  | [_] => ""
  | [_, _] => ""
  | a :: b :: c :: rest =>
    if a = "v1" ∧ b = "auth" then c else findMount (b :: c :: rest)

/-- `parseMount`: extract the mount path from a redirect URI. -/
def parseMount (redirectURI : String) : String :=
  findMount ((splitAllChar '/' redirectURI.data).map String.mk)

/-- `validRedirect`'s loop over the allow-list (loopback case): a malformed
entry returns `false` for the whole call; otherwise entries are compared
port-agnostically via `String()` after `Host = Hostname()`. -/
def validRedirectLoop (inputURI : GoURL) : List String → Bool
  | [] => false
  | a :: rest =>
    match goURLParse a with
    | none => false
    | some allowedURI =>
      let allowedURI2 := { allowedURI with host := urlHostname allowedURI }
      if urlString inputURI = urlString allowedURI2 then true
      else validRedirectLoop inputURI rest

/-- `validRedirect`: loopback hosts match the allow-list port-agnostically,
all other URIs by exact string membership; unparsable URIs never match. -/
def validRedirect (uri : String) (allowed : List String) : Bool :=
  match goURLParse uri with
  | none => false
  | some inputURI =>
    if !(strListContains ["localhost", "127.0.0.1", "::1"] (urlHostname inputURI)) then
      strListContains allowed uri
    else
      validRedirectLoop { inputURI with host := urlHostname inputURI } allowed

/-! ## The field inputs of each endpoint -/

/-- The fields of the `oidc/callback` read operation. -/
structure CallbackFields where
  state : String
  code : String
  idToken : String
  clientNonce : String
  errorDescription : String
deriving DecidableEq

/-- The fields of the `oidc/callback` update (form-post) operation. -/
structure CallbackPostFields where
  state : String
  code : String
  idToken : String
deriving DecidableEq

/-- The fields of the `oidc/poll` operation. -/
structure PollFields where
  state : String
  clientNonce : String
deriving DecidableEq

/-- The fields of the `oidc/auth_url` operation. -/
structure AuthURLFields where
  role : String
  redirectUri : String
  clientNonce : String
deriving DecidableEq

/-! ## `pathCallbackPost` -/

/-- `b.pathCallbackPost`: store the posted code/id_token into the existing
OIDC request and serve the form-post delivery page for the mount extracted
from the request's redirect URL. -/
def pathCallbackPost (env : Env) (store : Store) (d : CallbackPostFields) :
    CallbackResult × Store :=
  match env.configRes with
  | .error e => (.internalErr e, store)
  | .ok none => (.errResp (errLoginFailed ++ " Could not load configuration."), store)
  | .ok (some config) =>
    if config.oidcResponseMode ≠ responseModeFormPost then (.statusResp 405, store)
    else
      match getOIDCRequest store d.state with
      | none => (.html 400 (.errorPage errLoginFailed "Expired or missing OAuth state."), store)
      | some oidcReq =>
        let oidcReq2 := { oidcReq with code := d.code, idToken := d.idToken }
        let store2 := setOIDCRequest store d.state oidcReq2
        let mount := parseMount oidcReq2.redirectURL
        if mount = "" then
          (.html 400 (.errorPage errLoginFailed "Invalid redirect path."), store2)
        else
          (.html 200 (.formpostPage mount noCode d.state), store2)

/-! ## `pathCallback` -/

/-- Lines 318-321: the `sub` claim if it is a string, else `""`. -/
def subjectOf (allClaims : ClaimsMap) : String :=
  match claimLookup allClaims "sub" with
  | some (.str s) => s
  | _ => ""

/-- Lines 330-346: when a token (and thus a token source) is available, the
claims are enriched best-effort from the user-info endpoint; a user-info
failure is logged and swallowed (claims unchanged). -/
def enrichClaims (env : Env) (subject : String) (allClaims : ClaimsMap) (hasToken : Bool) :
    ClaimsMap :=
  if hasToken then
    match env.userInfo subject allClaims with
    | .ok c => c
    | .error _ => allClaims
  else allClaims

/-- Lines 365-389: token metadata (the role name overlaid with the alias
metadata), the `logical.Auth` literal, and `role.PopulateTokenAuth`. -/
def buildAuth (env : Env) (role : JwtRole) (rolename : String) (alias0 : Alias)
    (groupAliases : List Alias) : AuthData :=
  let tokenMetadata := alias0.metadata.foldl (fun m kv => upsert m kv.1 kv.2)
    [("role", rolename)]
  env.populateTokenAuth role
    { policies := role.policies, displayName := alias0.name,
      period := role.period, numUses := role.numUses, aliass := alias0,
      groupAliases := groupAliases, internalDataRole := rolename,
      metadata := tokenMetadata, renewable := true, ttl := role.ttl,
      maxTTL := role.maxTTL, boundCIDRs := role.boundCIDRs }

/-- The claims-processing tail of `pathCallback` (lines 310-404): parse the
claims of the verified token, strip the protocol nonce, check the bound
subject, best-effort user-info enrichment, identity translation, bound-claims
validation, credential construction, and delivery (stash for direct mode,
return directly otherwise). -/
def pathCallbackClaims (env : Env) (store : Store) (stateID : String) (role : JwtRole)
    (useHttp : Bool) (oidcReq : OidcRequest) (rawToken : String) (hasToken : Bool) :
    CallbackResult × Store :=
  match env.claimsOf rawToken with
  | .error e => (.internalErr e, store)
  | .ok claims0 =>
    let allClaims := claims0.filter (fun kv => kv.1 ≠ "nonce")
    if role.boundSubject ≠ "" ∧ role.boundSubject ≠ subjectOf allClaims then
      (loginFailedResponse useHttp "sub claim does not match bound subject", store)
    else
      let allClaims2 := enrichClaims env (subjectOf allClaims) allClaims hasToken
      match env.createIdentity allClaims2 role hasToken with
      | .error e => (loginFailedResponse useHttp e, store)
      | .ok (alias0, groupAliases) =>
        match env.validateBoundClaims role allClaims2 with
        | .error e => (loginFailedResponse useHttp ("error validating claims: " ++ e), store)
        | .ok _ =>
          let auth := buildAuth env role oidcReq.rolename alias0 groupAliases
          if useHttp then
            (.html 200 .successPage, setOIDCRequest store stateID { oidcReq with auth := some auth })
          else
            (.success auth, store)

/-- Lines 272-275 of `pathCallback`: the supplied `code` is used as-is unless
it equals the `no_code` sentinel, in which case the code previously stored on
the request (by `pathCallbackPost`) is used. -/
def effectiveCode (dcode storedCode : String) : String :=
  if dcode = noCode then storedCode else dcode

/-- The token-acquisition step of `pathCallback` (lines 264-296): provider
construction, the `no_code` sentinel substitution, and either inline ID-token
verification or the code-for-token exchange. -/
def pathCallbackVerify (env : Env) (store : Store) (stateID : String) (dcode : String)
    (config : JwtConfig) (role : JwtRole) (useHttp : Bool) (oidcReq : OidcRequest) :
    CallbackResult × Store :=
  match env.getProvider config with
  | .error e => (.internalErr ("error getting provider for login operation: " ++ e), store)
  | .ok _ =>
    if effectiveCode dcode oidcReq.code = "" then
      if oidcReq.idToken = "" then
        (loginFailedResponse useHttp "No code or id_token received.", store)
      else
        match env.verifyIDToken oidcReq.idToken with
        | .error e => (.errResp (errTokenVerification ++ " " ++ e), store)
        | .ok _ => pathCallbackClaims env store stateID role useHttp oidcReq oidcReq.idToken false
    else
      match env.exchange stateID (effectiveCode dcode oidcReq.code) with
      | .error e =>
        (loginFailedResponse useHttp ("Error exchanging oidc code: \x22" ++ e ++ "\x22."), store)
      | .ok token => pathCallbackClaims env store stateID role useHttp oidcReq token.idToken true

/-- The checks of `pathCallback` between role resolution and token
acquisition (lines 240-262): provider error description, client-nonce
correlation (skipped in direct mode), and bound-CIDR enforcement. -/
def pathCallbackChecks (env : Env) (store : Store) (d : CallbackFields)
    (config : JwtConfig) (role : JwtRole) (useHttp : Bool) (oidcReq : OidcRequest) :
    CallbackResult × Store :=
  if d.errorDescription ≠ "" then (loginFailedResponse useHttp d.errorDescription, store)
  else if oidcReq.clientNonce ≠ "" ∧ d.clientNonce ≠ oidcReq.clientNonce ∧ useHttp = false then
    (.errResp "invalid client_nonce", store)
  else if role.tokenBoundCIDRs.length > 0 then
    match env.remoteAddr with
    | none => (.permDenied, store)
    | some addr =>
      if env.cidrOk addr role.tokenBoundCIDRs = false then (.permDenied, store)
      else pathCallbackVerify env store d.state d.code config role useHttp oidcReq
  else pathCallbackVerify env store d.state d.code config role useHttp oidcReq

/-- `b.pathCallback`: config load, state lookup (failing for an absent entry
or one that already carries a credential), role resolution (deleting the
entry on failure), immediate single-use deletion outside direct mode, then
the checks/verification/claims pipeline. -/
def pathCallback (env : Env) (store : Store) (d : CallbackFields) :
    CallbackResult × Store :=
  match env.configRes with
  | .error e => (.internalErr e, store)
  | .ok none => (.errResp (errLoginFailed ++ " Could not load configuration"), store)
  | .ok (some config) =>
    match getOIDCRequest store d.state with
    | none => (.errResp expiredStateMsg, store)
    | some oidcReq =>
      if oidcReq.auth ≠ none then (.errResp expiredStateMsg, store)
      else
        match env.roleOf oidcReq.rolename with
        | .error e => (.internalErr e, deleteOIDCRequest store d.state)
        | .ok none =>
          (.errResp (errLoginFailed ++ " Role could not be found"), deleteOIDCRequest store d.state)
        | .ok (some role) =>
          let useHttp := role.callbackMode = callbackModeDirect
          let store1 := if useHttp then store else deleteOIDCRequest store d.state
          pathCallbackChecks env store1 d config role useHttp oidcReq

/-! ## `pathPoll` -/

/-- `b.pathPoll`: state lookup, the deferred client-nonce correlation (fatal:
the entry is deleted on mismatch), "authorization_pending" while no
credential is attached, and one-shot credential delivery (entry deleted). -/
def pathPoll (store : Store) (d : PollFields) : CallbackResult × Store :=
  match getOIDCRequest store d.state with
  | none => (.errResp expiredStateMsg, store)
  | some oidcReq =>
    if oidcReq.clientNonce ≠ "" ∧ d.clientNonce ≠ oidcReq.clientNonce then
      (.errResp "invalid client_nonce", deleteOIDCRequest store d.state)
    else
      match oidcReq.auth with
      | none => (.errResp "authorization_pending", store)
      | some a => (.success a, deleteOIDCRequest store d.state)

/-! ## `authURL` (StartLogin) -/

/-- The response data of `oidc/auth_url`: either an error response or a
success whose data map holds `auth_url` (possibly empty) and, in direct
callback mode, the state and poll interval. -/
inductive AuthURLResult where
  | errResp (msg : String)
  | internalErr (msg : String)
  | ok (authUrl : String) (state : Option String) (pollInterval : Option String)
deriving DecidableEq

/-- `b.createOIDCRequest`: code-verifier generation when configured for the
authorization-code response type, `oidc.NewRequest` (whose random state is
the oracle `newRequestState`), and storage of the new request keyed by that
state. -/
def createOIDCRequest (env : Env) (config : JwtConfig) (role : JwtRole)
    (rolename redirectURI clientNonce : String) (store : Store) :
    Except String (String × Store) :=
  match (if config.hasTypeIDToken then Except.ok ()
         else if config.hasTypeCode then
           match env.newCodeVerifier with
           | .error e => Except.error ("error creating code challenge: " ++ e)
           | .ok _ => Except.ok ()
         else Except.ok ()) with
  | .error e => .error e
  | .ok _ =>
    match env.newRequestState with
    | .error e => .error e
    | .ok st =>
      .ok (st, setOIDCRequest store st
        { redirectURL := redirectURI, rolename := rolename, code := "",
          idToken := "", clientNonce := clientNonce, auth := none })

/-- Lines 489-502 of `authURL`: when namespace-in-state is configured, parse
the redirect URI (`none` models the early `return resp, nil` on a parse
error) and, if a `namespace` query parameter is present, strip it and
re-encode the query.  Returns the redirect URI to validate and the extracted
namespace. -/
def namespaceProcess (config : JwtConfig) (redirectURI : String) :
    Option (String × String) :=
  if config.namespaceInState then
    match goURLParse redirectURI with
    | none => none
    | some inputURI =>
      let qParam := parseQueryLax inputURI.rawQuery.data
      let ns := queryGet qParam "namespace"
      if ns.length > 0 then
        some (urlString { inputURI with rawQuery := queryEncode (queryDel qParam "namespace") }, ns)
      else some (redirectURI, ns)
  else some (redirectURI, "")

/-- The tail of `b.authURL` after the client-nonce precondition (lines
486-548): namespace handling, redirect-URI validation, the form-post UI
rewrite, provider construction, request creation, auth-URL generation,
namespace re-embedding into the state, and the direct-mode extras.  Every
branch of this tail produces a success (`.ok`) response. -/
def authURLPostNonce (env : Env) (store : Store) (d : AuthURLFields)
    (config : JwtConfig) (role : JwtRole) (roleName : String) : AuthURLResult × Store :=
  match namespaceProcess config d.redirectUri with
  | none => (.ok "" none none, store)
  | some (redirectURI1, ns) =>
    if validRedirect redirectURI1 role.allowedRedirectURIs = false then
      (.ok "" none none, store)
    else
      let redirectURI2 :=
        if config.oidcResponseMode = responseModeFormPost then
          replaceOnce redirectURI1 "ui/vault" "v1"
        else redirectURI1
      match env.getProvider config with
      | .error _ => (.ok "" none none, store)
      | .ok _ =>
        match createOIDCRequest env config role roleName redirectURI2 d.clientNonce store with
        | .error _ => (.ok "" none none, store)
        | .ok (st, store2) =>
          match env.authURLGen st with
          | .error _ => (.ok "" none none, store2)
          | .ok urlStr =>
            let urlStr2 :=
              if config.namespaceInState ∧ ns.length > 0 then
                replaceOnce urlStr st (queryEscape (st ++ ",ns=" ++ ns))
              else urlStr
            if role.callbackMode = callbackModeDirect then
              (.ok urlStr2 (some st) (some "5"), store2)
            else
              (.ok urlStr2 none none, store2)

/-- `b.authURL`: the StartLogin endpoint.  Config/role/nonce preconditions
produce descriptive error responses; redirect-URI validation failure and all
later internal errors degrade to the default response with an empty
`auth_url`; direct-mode roles additionally receive the state and a poll
interval of "5". -/
def authURL (env : Env) (store : Store) (d : AuthURLFields) : AuthURLResult × Store :=
  match env.configRes with
  | .error e => (.internalErr e, store)
  | .ok none => (.errResp "could not load configuration", store)
  | .ok (some config) =>
    if config.isOIDCFlow = false then (.errResp errNotOIDCFlow, store)
    else
      let roleName := if d.role = "" then config.defaultRole else d.role
      if roleName = "" then (.errResp "missing role", store)
      else if d.redirectUri = "" then (.errResp "missing redirect_uri", store)
      else
        match env.roleOf roleName with
        | .error e => (.internalErr e, store)
        | .ok none => (.errResp ("role \x22" ++ roleName ++ "\x22 could not be found"), store)
        | .ok (some role) =>
          if d.clientNonce = "" ∧ role.callbackMode ≠ callbackModeClient then
            (.errResp "missing client_nonce", store)
          else
            authURLPostNonce env store d config role roleName

/-! ## Concrete fixtures for witnesses and counterexamples -/

/-- A minimal OIDC-flow configuration. -/
def cfgW : JwtConfig :=
  { isOIDCFlow := true, defaultRole := "", oidcResponseMode := "query",
    namespaceInState := false, hasTypeIDToken := false, hasTypeCode := false }

/-- A form-post configuration (for the form-post delivery fixture). -/
def cfgFormPostW : JwtConfig :=
  { cfgW with oidcResponseMode := "form_post" }

/-- A direct-callback-mode role. -/
def roleDirW : JwtRole :=
  { callbackMode := "direct",
    allowedRedirectURIs := ["https://example.com/v1/auth/m/oidc/callback"],
    tokenBoundCIDRs := [], boundSubject := "", verboseOIDCLogging := false,
    boundAudiences := [], oidcScopes := [], maxAge := 0, policies := ["p"],
    period := 0, numUses := 0, ttl := 0, maxTTL := 0, boundCIDRs := [] }

/-- A client-callback-mode role. -/
def roleCliW : JwtRole :=
  { roleDirW with callbackMode := "client" }

/-- An all-success oracle environment: role "dir" is direct-mode, role "cli"
is client-mode, every external call succeeds. -/
def envW : Env :=
  { configRes := .ok (some cfgW),
    roleOf := fun n =>
      if n = "dir" then .ok (some roleDirW)
      else if n = "cli" then .ok (some roleCliW)
      else .ok none,
    getProvider := fun _ => .ok (),
    verifyIDToken := fun _ => .ok (),
    exchange := fun _ _ => .ok { idToken := "tok" },
    claimsOf := fun _ => .ok [("sub", .str "alice")],
    userInfo := fun _ c => .ok c,
    createIdentity := fun _ _ _ => .ok ({ name := "alice", metadata := [] }, []),
    validateBoundClaims := fun _ _ => .ok (),
    populateTokenAuth := fun _ a => a,
    remoteAddr := none,
    cidrOk := fun _ _ => true,
    newCodeVerifier := .ok (),
    newRequestState := .ok "state1",
    authURLGen := fun _ => .ok "https://provider/auth" }

/-- The same environment with a form-post configuration. -/
def envFormPostW : Env :=
  { envW with configRes := .ok (some cfgFormPostW) }

/-- An environment whose provider construction fails. -/
def envProvFailW : Env :=
  { envW with getProvider := fun _ => .error "provider down" }

/-- An environment whose auth-URL generation fails. -/
def envGenFailW : Env :=
  { envW with authURLGen := fun _ => .error "no url" }

/-- A pending direct-mode request (client nonce "n1", no credential yet). -/
def reqDirW : OidcRequest :=
  { redirectURL := "https://example.com/v1/auth/m/oidc/callback",
    rolename := "dir", code := "", idToken := "", clientNonce := "n1", auth := none }

/-- A pending client-mode request. -/
def reqCliW : OidcRequest :=
  { reqDirW with rolename := "cli" }

/-- A concrete credential, for consumed-state fixtures. -/
def authW : AuthData :=
  { policies := ["p"], displayName := "alice", period := 0, numUses := 0,
    aliass := { name := "alice", metadata := [] }, groupAliases := [],
    internalDataRole := "dir", metadata := [("role", "dir")], renewable := true,
    ttl := 0, maxTTL := 0, boundCIDRs := [] }

/-- A direct-mode request whose credential has already been attached. -/
def reqDoneW : OidcRequest :=
  { reqDirW with auth := some authW }

/-- Parsed form of `http://localhost:4321/cb` (counterexample fixture). -/
def uLoop4321 : GoURL :=
  { scheme := "http", opq := "", user := "", host := "localhost:4321",
    path := "/cb", rawQuery := "", forceQuery := false, fragment := "",
    omitHost := false }

/-- Parsed form of `http://localhost:9999/cb` (counterexample fixture). -/
def uLoop9999 : GoURL :=
  { uLoop4321 with host := "localhost:9999" }

/-- Parsed form of `http://localhost:1/a` (witness fixture). -/
def uLoopW : GoURL :=
  { scheme := "http", opq := "", user := "", host := "localhost:1",
    path := "/a", rawQuery := "", forceQuery := false, fragment := "",
    omitHost := false }

/-- Parsed form of `https://evil.example/cb` (witness fixture). -/
def uEvilW : GoURL :=
  { scheme := "https", opq := "", user := "", host := "evil.example",
    path := "/cb", rawQuery := "", forceQuery := false, fragment := "",
    omitHost := false }

/-! ## Helper lemmas -/

theorem strListContains_iff (l : List String) (s : String) :
    strListContains l s = true ↔ s ∈ l := by
  induction l with
  | nil => simp [strListContains]
  | cons a t ih =>
    simp only [strListContains, List.contains_cons] at *
    constructor
    · intro h
      rcases Bool.or_eq_true_iff.mp h with h1 | h2
      · rw [beq_iff_eq] at h1
        rw [h1]
        exact List.mem_cons_self a t
      · exact List.mem_cons_of_mem a (ih.mp h2)
    · intro h
      rcases List.mem_cons.mp h with rfl | h2
      · simp
      · exact Bool.or_eq_true_iff.mpr (Or.inr (ih.mpr h2))

theorem getOIDCRequest_delete (store : Store) (k : String) :
    getOIDCRequest (deleteOIDCRequest store k) k = none := by
  induction store with
  | nil => rfl
  | cons kv rest ih =>
    by_cases h : kv.1 = k
    · simpa [deleteOIDCRequest, h] using ih
    · simpa [deleteOIDCRequest, getOIDCRequest, h] using ih

theorem getOIDCRequest_set_self (store : Store) (k : String) (r : OidcRequest) :
    getOIDCRequest (setOIDCRequest store k r) k = some r := by
  induction store with
  | nil => simp [setOIDCRequest, getOIDCRequest]
  | cons kv rest ih =>
    by_cases h : kv.1 = k
    · simp [setOIDCRequest, getOIDCRequest, h]
    · simpa [setOIDCRequest, getOIDCRequest, h] using ih

theorem pathPoll_absent (store : Store) (d : PollFields)
    (h : getOIDCRequest store d.state = none) :
    pathPoll store d = (.errResp expiredStateMsg, store) := by
  simp [pathPoll, h]

theorem pathCallback_absent (env : Env) (store : Store) (cfg : JwtConfig) (d : CallbackFields)
    (hc : env.configRes = .ok (some cfg))
    (h : getOIDCRequest store d.state = none) :
    pathCallback env store d = (.errResp expiredStateMsg, store) := by
  simp [pathCallback, hc, h]

theorem pathCallback_consumed (env : Env) (store : Store) (cfg : JwtConfig) (d : CallbackFields)
    (req : OidcRequest)
    (hc : env.configRes = .ok (some cfg))
    (h : getOIDCRequest store d.state = some req)
    (ha : req.auth ≠ none) :
    pathCallback env store d = (.errResp expiredStateMsg, store) := by
  simp [pathCallback, hc, h, ha]

theorem pathCallbackClaims_snd (env : Env) (store : Store) (st : String) (role : JwtRole)
    (req : OidcRequest) (raw : String) (tk : Bool) :
    (pathCallbackClaims env store st role false req raw tk).2 = store := by
  unfold pathCallbackClaims
  split
  · rfl
  · dsimp only
    split
    · rfl
    · split
      · rfl
      · split
        · rfl
        · rfl

theorem pathCallbackVerify_snd (env : Env) (store : Store) (st dcode : String)
    (cfg : JwtConfig) (role : JwtRole) (req : OidcRequest) :
    (pathCallbackVerify env store st dcode cfg role false req).2 = store := by
  unfold pathCallbackVerify
  cases env.getProvider cfg with
  | error e => rfl
  | ok u =>
    dsimp only
    by_cases h1 : effectiveCode dcode req.code = ""
    · rw [if_pos h1]
      by_cases h2 : req.idToken = ""
      · rw [if_pos h2]
      · rw [if_neg h2]
        cases env.verifyIDToken req.idToken with
        | error e => rfl
        | ok u2 => exact pathCallbackClaims_snd ..
    · rw [if_neg h1]
      cases env.exchange st (effectiveCode dcode req.code) with
      | error e => rfl
      | ok token => exact pathCallbackClaims_snd ..

theorem pathCallbackChecks_snd (env : Env) (store : Store) (d : CallbackFields)
    (cfg : JwtConfig) (role : JwtRole) (req : OidcRequest) :
    (pathCallbackChecks env store d cfg role false req).2 = store := by
  unfold pathCallbackChecks
  split
  · rfl
  · split
    · rfl
    · split
      · cases env.remoteAddr with
        | none => rfl
        | some addr =>
          dsimp only
          split
          · rfl
          · exact pathCallbackVerify_snd ..
      · exact pathCallbackVerify_snd ..

theorem pathCallback_snd_nondirect (env : Env) (store : Store) (cfg : JwtConfig)
    (d : CallbackFields) (req : OidcRequest) (role : JwtRole)
    (hc : env.configRes = .ok (some cfg))
    (hq : getOIDCRequest store d.state = some req)
    (ha : req.auth = none)
    (hr : env.roleOf req.rolename = .ok (some role))
    (hm : role.callbackMode ≠ callbackModeDirect) :
    (pathCallback env store d).2 = deleteOIDCRequest store d.state := by
  unfold pathCallback
  rw [hc]
  dsimp only
  rw [hq]
  dsimp only
  rw [if_neg (by simp [ha])]
  rw [hr]
  dsimp only
  rw [if_neg hm]
  rw [decide_eq_false hm]
  exact pathCallbackChecks_snd ..

/-! ## Claim theorems -/

/-- C3: `pathCallback` fails with the "Expired or missing OAuth state." error
whenever the state token is absent from the store or the stored request
already has a credential attached, and `pathPoll` fails with the same error
whenever the state token is absent; neither deletes anything nor returns a
different error class in those situations. -/
theorem c3_expired_or_missing_state (env : Env) (store : Store) (cfg : JwtConfig)
    (dcb : CallbackFields) (dp : PollFields)
    (hc : env.configRes = .ok (some cfg)) :
    ((getOIDCRequest store dcb.state = none ∨
        (∃ req, getOIDCRequest store dcb.state = some req ∧ req.auth ≠ none)) →
      pathCallback env store dcb = (.errResp expiredStateMsg, store)) ∧
    (getOIDCRequest store dp.state = none →
      pathPoll store dp = (.errResp expiredStateMsg, store)) := by
  constructor
  · intro h
    rcases h with h | ⟨req, hq, ha⟩
    · exact pathCallback_absent env store cfg dcb hc h
    · exact pathCallback_consumed env store cfg dcb req hc hq ha
  · intro h
    exact pathPoll_absent store dp h

/-- C3 witness: a store without the token (callback and poll), and a store
whose request already carries a credential (callback). -/
theorem c3_expired_or_missing_state_witness :
    pathCallback envW []
      { state := "st", code := "", idToken := "", clientNonce := "", errorDescription := "" }
      = (.errResp expiredStateMsg, []) ∧
    pathPoll [] { state := "st", clientNonce := "" } = (.errResp expiredStateMsg, []) ∧
    pathCallback envW [("st", reqDoneW)]
      { state := "st", code := "", idToken := "", clientNonce := "", errorDescription := "" }
      = (.errResp expiredStateMsg, [("st", reqDoneW)]) := by
  refine ⟨?_, ?_, ?_⟩
  · exact (c3_expired_or_missing_state envW [] cfgW
      { state := "st", code := "", idToken := "", clientNonce := "", errorDescription := "" }
      { state := "st", clientNonce := "" } rfl).1 (Or.inl rfl)
  · exact (c3_expired_or_missing_state envW [] cfgW
      { state := "st", code := "", idToken := "", clientNonce := "", errorDescription := "" }
      { state := "st", clientNonce := "" } rfl).2 rfl
  · exact (c3_expired_or_missing_state envW [("st", reqDoneW)] cfgW
      { state := "st", code := "", idToken := "", clientNonce := "", errorDescription := "" }
      { state := "st", clientNonce := "" } rfl).1
      (Or.inr ⟨reqDoneW, rfl, by decide⟩)

/-- C4: in `pathCallback` for a role not in direct-callback mode, the entry
is deleted from the store as soon as the role is resolved, regardless of the
outcome of every later step (provider error description, nonce check, CIDR
check, token verification, credential construction); hence no second
callback or poll can observe the entry. -/
theorem c4_client_mode_single_use (env env2 : Env) (store : Store) (cfg cfg2 : JwtConfig)
    (d d2 : CallbackFields) (dp : PollFields) (req : OidcRequest) (role : JwtRole)
    (hc : env.configRes = .ok (some cfg))
    (hq : getOIDCRequest store d.state = some req)
    (ha : req.auth = none)
    (hr : env.roleOf req.rolename = .ok (some role))
    (hm : role.callbackMode ≠ callbackModeDirect)
    (hc2 : env2.configRes = .ok (some cfg2))
    (h2 : d2.state = d.state) (hp : dp.state = d.state) :
    (pathCallback env store d).2 = deleteOIDCRequest store d.state ∧
    getOIDCRequest (pathCallback env store d).2 d.state = none ∧
    pathCallback env2 (pathCallback env store d).2 d2 =
      (.errResp expiredStateMsg, (pathCallback env store d).2) ∧
    pathPoll (pathCallback env store d).2 dp =
      (.errResp expiredStateMsg, (pathCallback env store d).2) := by
  have hsnd := pathCallback_snd_nondirect env store cfg d req role hc hq ha hr hm
  have habs : getOIDCRequest (pathCallback env store d).2 d.state = none := by
    rw [hsnd]; exact getOIDCRequest_delete store d.state
  refine ⟨hsnd, habs, ?_, ?_⟩
  · exact pathCallback_absent env2 _ cfg2 d2 hc2 (h2 ▸ habs)
  · exact pathPoll_absent _ dp (hp ▸ habs)

/-- C4 witness: a client-mode role whose callback provokes a provider error
description; the entry is gone afterwards and replays fail. -/
theorem c4_client_mode_single_use_witness :
    (pathCallback envW [("st", reqCliW)]
      { state := "st", code := "c", idToken := "", clientNonce := "n1", errorDescription := "denied" }).2
      = [] ∧
    pathPoll [] { state := "st", clientNonce := "n1" } = (.errResp expiredStateMsg, []) := by
  have h := c4_client_mode_single_use envW envW [("st", reqCliW)] cfgW cfgW
    { state := "st", code := "c", idToken := "", clientNonce := "n1",
      errorDescription := "denied" }
    { state := "st", code := "c", idToken := "", clientNonce := "n1",
      errorDescription := "denied" }
    { state := "st", clientNonce := "n1" } reqCliW roleCliW
    rfl rfl rfl rfl (by decide) rfl rfl rfl
  refine ⟨?_, ?_⟩
  · rw [h.1]; rfl
  · have := h.2.2.2
    rw [h.1] at this
    simpa using this

theorem pathPoll_mismatch (store : Store) (d : PollFields) (req : OidcRequest)
    (hq : getOIDCRequest store d.state = some req)
    (h1 : req.clientNonce ≠ "") (h2 : d.clientNonce ≠ req.clientNonce) :
    pathPoll store d = (.errResp "invalid client_nonce", deleteOIDCRequest store d.state) := by
  unfold pathPoll
  rw [hq]
  dsimp only
  rw [if_pos ⟨h1, h2⟩]

theorem pathCallback_mismatch_nondirect (env : Env) (store : Store) (cfg : JwtConfig)
    (d : CallbackFields) (req : OidcRequest) (role : JwtRole)
    (hc : env.configRes = .ok (some cfg))
    (hq : getOIDCRequest store d.state = some req)
    (ha : req.auth = none)
    (hr : env.roleOf req.rolename = .ok (some role))
    (hm : role.callbackMode ≠ callbackModeDirect)
    (hd : d.errorDescription = "")
    (h1 : req.clientNonce ≠ "") (h2 : d.clientNonce ≠ req.clientNonce) :
    pathCallback env store d = (.errResp "invalid client_nonce", deleteOIDCRequest store d.state) := by
  unfold pathCallback
  rw [hc]
  dsimp only
  rw [hq]
  dsimp only
  rw [if_neg (by simp [ha])]
  rw [hr]
  dsimp only
  rw [if_neg hm, decide_eq_false hm]
  unfold pathCallbackChecks
  rw [if_neg (by simp [hd])]
  rw [if_pos ⟨h1, h2, rfl⟩]

/-- C6 (amended): `pathPoll` with a mismatched client nonce against a
request created with a non-empty nonce always fails with "invalid
client_nonce" and removes the entry (a further poll yields "expired or
missing state"); `pathCallback` performs the same check only outside
direct-callback mode (where the entry has already been removed by the
single-use deletion); in direct mode the callback defers the nonce check to
`pathPoll`. -/
theorem c6_nonce_mismatch (env : Env) (store : Store) (cfg : JwtConfig)
    (d : CallbackFields) (dp : PollFields) (req req2 : OidcRequest) (role : JwtRole) :
    (getOIDCRequest store dp.state = some req2 → req2.clientNonce ≠ "" →
      dp.clientNonce ≠ req2.clientNonce →
      pathPoll store dp = (.errResp "invalid client_nonce", deleteOIDCRequest store dp.state) ∧
      (∀ dp2 : PollFields, dp2.state = dp.state →
        pathPoll (deleteOIDCRequest store dp.state) dp2 =
          (.errResp expiredStateMsg, deleteOIDCRequest store dp.state))) ∧
    (env.configRes = .ok (some cfg) → getOIDCRequest store d.state = some req →
      req.auth = none → env.roleOf req.rolename = .ok (some role) →
      role.callbackMode ≠ callbackModeDirect → d.errorDescription = "" →
      req.clientNonce ≠ "" → d.clientNonce ≠ req.clientNonce →
      pathCallback env store d =
        (.errResp "invalid client_nonce", deleteOIDCRequest store d.state) ∧
      (∀ dp2 : PollFields, dp2.state = d.state →
        pathPoll (deleteOIDCRequest store d.state) dp2 =
          (.errResp expiredStateMsg, deleteOIDCRequest store d.state))) := by
  constructor
  · intro hq h1 h2
    refine ⟨pathPoll_mismatch store dp req2 hq h1 h2, ?_⟩
    intro dp2 hst
    exact pathPoll_absent _ dp2 (by rw [hst]; exact getOIDCRequest_delete store dp.state)
  · intro hc hq ha hr hm hd h1 h2
    refine ⟨pathCallback_mismatch_nondirect env store cfg d req role hc hq ha hr hm hd h1 h2, ?_⟩
    intro dp2 hst
    exact pathPoll_absent _ dp2 (by rw [hst]; exact getOIDCRequest_delete store d.state)

/-- C6 witness: a mismatched poll against a direct-mode request, and a
mismatched callback against a client-mode request. -/
theorem c6_nonce_mismatch_witness :
    pathPoll [("st", reqDirW)] { state := "st", clientNonce := "bad" } =
      (.errResp "invalid client_nonce", []) ∧
    pathCallback envW [("st", reqCliW)]
      { state := "st", code := "c", idToken := "", clientNonce := "bad", errorDescription := "" }
      = (.errResp "invalid client_nonce", []) := by
  have h := c6_nonce_mismatch envW [("st", reqCliW)] cfgW
    { state := "st", code := "c", idToken := "", clientNonce := "bad", errorDescription := "" }
    { state := "st", clientNonce := "bad" } reqCliW reqDirW roleCliW
  have h2 := c6_nonce_mismatch envW [("st", reqDirW)] cfgW
    { state := "st", code := "c", idToken := "", clientNonce := "bad", errorDescription := "" }
    { state := "st", clientNonce := "bad" } reqDirW reqDirW roleCliW
  constructor
  · have := (h2.1 rfl (by decide) (by decide)).1
    simpa using this
  · have := (h.2 rfl rfl rfl rfl (by decide) rfl (by decide) (by decide)).1
    simpa using this

/-- C6 counterexample: in direct-callback mode, `pathCallback` with a
mismatched client nonce does not fail with "invalid client_nonce" (here the
provider error description is returned instead) and the entry is not removed
from the store — the claim's universal statement over HandleCallback fails. -/
theorem c6_nonce_mismatch_counterexample :
    reqDirW.clientNonce = "n1" ∧
    (getOIDCRequest [("st", reqDirW)] "st" = some reqDirW) ∧
    roleDirW.callbackMode = callbackModeDirect ∧
    envW.roleOf reqDirW.rolename = .ok (some roleDirW) ∧
    pathCallback envW [("st", reqDirW)]
      { state := "st", code := "c", idToken := "", clientNonce := "bad", errorDescription := "denied" }
      = (.html 400 (.errorPage errLoginFailed "denied"), [("st", reqDirW)]) ∧
    (pathCallback envW [("st", reqDirW)]
      { state := "st", code := "c", idToken := "", clientNonce := "bad", errorDescription := "denied" }).1
      ≠ .errResp "invalid client_nonce" ∧
    getOIDCRequest (pathCallback envW [("st", reqDirW)]
      { state := "st", code := "c", idToken := "", clientNonce := "bad", errorDescription := "denied" }).2
      "st" = some reqDirW := by
  exact ⟨rfl, by decide, rfl, rfl, by decide, by decide, by decide⟩

theorem loginFailedResponse_ne (u : Bool) (m : String) :
    loginFailedResponse u m ≠ CallbackResult.html 200 .successPage := by
  unfold loginFailedResponse
  split <;> simp

theorem pathPoll_pending (store : Store) (d : PollFields) (req : OidcRequest)
    (hq : getOIDCRequest store d.state = some req)
    (ha : req.auth = none)
    (hn : req.clientNonce = "" ∨ d.clientNonce = req.clientNonce) :
    pathPoll store d = (.errResp "authorization_pending", store) := by
  unfold pathPoll
  rw [hq]
  dsimp only
  rw [if_neg (by rintro ⟨hne, hne2⟩; rcases hn with h | h; exact hne h; exact hne2 h)]
  rw [ha]

theorem pathPoll_deliver (store : Store) (d : PollFields) (req : OidcRequest) (a : AuthData)
    (hq : getOIDCRequest store d.state = some req)
    (ha : req.auth = some a)
    (hn : req.clientNonce = "" ∨ d.clientNonce = req.clientNonce) :
    pathPoll store d = (.success a, deleteOIDCRequest store d.state) := by
  unfold pathPoll
  rw [hq]
  dsimp only
  rw [if_neg (by rintro ⟨hne, hne2⟩; rcases hn with h | h; exact hne h; exact hne2 h)]
  rw [ha]

theorem pathCallbackClaims_success (env : Env) (store : Store) (st : String) (role : JwtRole)
    (u : Bool) (req : OidcRequest) (raw : String) (tk : Bool)
    (h : (pathCallbackClaims env store st role u req raw tk).1 = .html 200 .successPage) :
    u = true ∧ ∃ a, pathCallbackClaims env store st role u req raw tk =
      (.html 200 .successPage, setOIDCRequest store st { req with auth := some a }) := by
  unfold pathCallbackClaims at h ⊢
  revert h
  cases hcl : env.claimsOf raw with
  | error e =>
    intro h
    exact absurd h (by simp)
  | ok claims0 =>
    intro h
    dsimp only at h ⊢
    by_cases hbs : role.boundSubject ≠ "" ∧
      role.boundSubject ≠ subjectOf (claims0.filter (fun kv => kv.1 ≠ "nonce"))
    · rw [if_pos hbs] at h
      exact absurd h (by dsimp only; exact loginFailedResponse_ne _ _)
    · rw [if_neg hbs] at h ⊢
      revert h
      cases hci : env.createIdentity
        (enrichClaims env (subjectOf (claims0.filter (fun kv => kv.1 ≠ "nonce")))
          (claims0.filter (fun kv => kv.1 ≠ "nonce")) tk) role tk with
      | error e =>
        intro h
        exact absurd h (by dsimp only; exact loginFailedResponse_ne _ _)
      | ok pr =>
        intro h
        obtain ⟨alias0, gas⟩ := pr
        dsimp only at h ⊢
        revert h
        cases hcv : env.validateBoundClaims role
          (enrichClaims env (subjectOf (claims0.filter (fun kv => kv.1 ≠ "nonce")))
            (claims0.filter (fun kv => kv.1 ≠ "nonce")) tk) with
        | error e =>
          intro h
          exact absurd h (by dsimp only; exact loginFailedResponse_ne _ _)
        | ok u2 =>
          intro h
          dsimp only at h ⊢
          cases u with
          | false => exact absurd h (by simp)
          | true => exact ⟨rfl, buildAuth env role req.rolename alias0 gas, by simp⟩

theorem pathCallbackVerify_success (env : Env) (store : Store) (st dcode : String)
    (cfg : JwtConfig) (role : JwtRole) (u : Bool) (req : OidcRequest)
    (h : (pathCallbackVerify env store st dcode cfg role u req).1 = .html 200 .successPage) :
    u = true ∧ ∃ a, pathCallbackVerify env store st dcode cfg role u req =
      (.html 200 .successPage, setOIDCRequest store st { req with auth := some a }) := by
  unfold pathCallbackVerify at h ⊢
  revert h
  cases hgp : env.getProvider cfg with
  | error e =>
    intro h
    exact absurd h (by simp)
  | ok u1 =>
    intro h
    dsimp only at h ⊢
    by_cases h1 : effectiveCode dcode req.code = ""
    · rw [if_pos h1] at h ⊢
      by_cases h2 : req.idToken = ""
      · rw [if_pos h2] at h
        exact absurd h (by dsimp only; exact loginFailedResponse_ne _ _)
      · rw [if_neg h2] at h ⊢
        revert h
        cases hv : env.verifyIDToken req.idToken with
        | error e =>
          intro h
          exact absurd h (by simp)
        | ok u2 =>
          intro h
          exact pathCallbackClaims_success env store st role u req req.idToken false h
    · rw [if_neg h1] at h ⊢
      revert h
      cases hx : env.exchange st (effectiveCode dcode req.code) with
      | error e =>
        intro h
        exact absurd h (by dsimp only; exact loginFailedResponse_ne _ _)
      | ok token =>
        intro h
        exact pathCallbackClaims_success env store st role u req token.idToken true h

theorem pathCallbackChecks_success (env : Env) (store : Store) (d : CallbackFields)
    (cfg : JwtConfig) (role : JwtRole) (u : Bool) (req : OidcRequest)
    (h : (pathCallbackChecks env store d cfg role u req).1 = .html 200 .successPage) :
    u = true ∧ ∃ a, pathCallbackChecks env store d cfg role u req =
      (.html 200 .successPage, setOIDCRequest store d.state { req with auth := some a }) := by
  unfold pathCallbackChecks at h ⊢
  by_cases hd : d.errorDescription ≠ ""
  · rw [if_pos hd] at h
    exact absurd h (by dsimp only; exact loginFailedResponse_ne _ _)
  · rw [if_neg hd] at h ⊢
    by_cases hn : req.clientNonce ≠ "" ∧ d.clientNonce ≠ req.clientNonce ∧ u = false
    · rw [if_pos hn] at h
      exact absurd h (by simp)
    · rw [if_neg hn] at h ⊢
      by_cases hcidr : role.tokenBoundCIDRs.length > 0
      · rw [if_pos hcidr] at h ⊢
        revert h
        cases hra : env.remoteAddr with
        | none =>
          intro h
          exact absurd h (by simp)
        | some addr =>
          intro h
          dsimp only at h ⊢
          by_cases hok : env.cidrOk addr role.tokenBoundCIDRs = false
          · rw [if_pos hok] at h
            exact absurd h (by simp)
          · rw [if_neg hok] at h ⊢
            exact pathCallbackVerify_success env store d.state d.code cfg role u req h
      · rw [if_neg hcidr] at h ⊢
        exact pathCallbackVerify_success env store d.state d.code cfg role u req h

theorem pathCallback_success (env : Env) (store : Store) (d : CallbackFields) (req : OidcRequest)
    (hq : getOIDCRequest store d.state = some req)
    (h : (pathCallback env store d).1 = .html 200 .successPage) :
    ∃ a, pathCallback env store d =
      (.html 200 .successPage, setOIDCRequest store d.state { req with auth := some a }) := by
  unfold pathCallback at h ⊢
  revert h
  cases hc : env.configRes with
  | error e =>
    intro h
    exact absurd h (by simp)
  | ok oc =>
    cases oc with
    | none =>
      intro h
      exact absurd h (by simp)
    | some cfg =>
      intro h
      dsimp only at h ⊢
      rw [hq] at h ⊢
      dsimp only at h ⊢
      by_cases ha : req.auth ≠ none
      · rw [if_pos ha] at h
        exact absurd h (by simp)
      · rw [if_neg ha] at h ⊢
        revert h
        cases hr : env.roleOf req.rolename with
        | error e =>
          intro h
          exact absurd h (by simp)
        | ok orole =>
          cases orole with
          | none =>
            intro h
            exact absurd h (by simp)
          | some role =>
            intro h
            dsimp only at h ⊢
            have hcs := pathCallbackChecks_success env
              (if role.callbackMode = callbackModeDirect then store
               else deleteOIDCRequest store d.state) d cfg role
              (decide (role.callbackMode = callbackModeDirect)) req h
            obtain ⟨hu, a, heq⟩ := hcs
            have hprop : role.callbackMode = callbackModeDirect := of_decide_eq_true hu
            rw [if_pos hprop] at heq
            rw [if_pos hprop]
            exact ⟨a, heq⟩

/-- C5: direct-mode at-most-once delivery.  While no credential is attached,
`pathPoll` (with matching or absent client nonce) returns
"authorization_pending" and leaves the entry untouched; once `pathCallback`
has completed successfully in direct mode (the success page), a credential
is attached to the stored entry, the next matching `pathPoll` deletes the
entry and returns exactly that credential, and any further `pathPoll` on the
same token fails with "Expired or missing OAuth state.". -/
theorem c5_direct_at_most_once (env : Env) (store : Store) (d : CallbackFields) :
    (∀ (dp : PollFields) req, getOIDCRequest store dp.state = some req → req.auth = none →
      (req.clientNonce = "" ∨ dp.clientNonce = req.clientNonce) →
      pathPoll store dp = (.errResp "authorization_pending", store)) ∧
    (∀ req, getOIDCRequest store d.state = some req →
      (pathCallback env store d).1 = .html 200 .successPage →
      ∃ a, (pathCallback env store d).2 =
          setOIDCRequest store d.state { req with auth := some a } ∧
        ∀ dp : PollFields, dp.state = d.state →
          (req.clientNonce = "" ∨ dp.clientNonce = req.clientNonce) →
          pathPoll (pathCallback env store d).2 dp =
            (.success a, deleteOIDCRequest (pathCallback env store d).2 d.state) ∧
          ∀ dp2 : PollFields, dp2.state = d.state →
            pathPoll (deleteOIDCRequest (pathCallback env store d).2 d.state) dp2 =
              (.errResp expiredStateMsg, deleteOIDCRequest (pathCallback env store d).2 d.state)) := by
  constructor
  · intro dp req hq ha hn
    exact pathPoll_pending store dp req hq ha hn
  · intro req hq h
    obtain ⟨a, heq⟩ := pathCallback_success env store d req hq h
    have hsnd : (pathCallback env store d).2 =
        setOIDCRequest store d.state { req with auth := some a } := by rw [heq]
    refine ⟨a, hsnd, ?_⟩
    intro dp hst hn
    have hget : getOIDCRequest (pathCallback env store d).2 dp.state =
        some { req with auth := some a } := by
      rw [hst, hsnd]
      exact getOIDCRequest_set_self store d.state _
    constructor
    · have := pathPoll_deliver (pathCallback env store d).2 dp { req with auth := some a } a
        hget rfl (by simpa using hn)
      rw [hst] at this
      exact this
    · intro dp2 hst2
      refine pathPoll_absent _ dp2 ?_
      rw [hst2]
      exact getOIDCRequest_delete _ d.state

/-- C5 witness: the concrete direct-mode round trip — pending poll, then a
successful callback attaching the credential, one delivering poll, and a
failing second poll. -/
theorem c5_direct_at_most_once_witness :
    pathPoll [("st", reqDirW)] { state := "st", clientNonce := "n1" } =
      (.errResp "authorization_pending", [("st", reqDirW)]) ∧
    (∃ a, (pathCallback envW [("st", reqDirW)]
        { state := "st", code := "abc", idToken := "", clientNonce := "n1", errorDescription := "" }).2 =
        setOIDCRequest [("st", reqDirW)] "st" { reqDirW with auth := some a } ∧
      ∀ dp : PollFields, dp.state = "st" →
        (reqDirW.clientNonce = "" ∨ dp.clientNonce = reqDirW.clientNonce) →
        pathPoll (pathCallback envW [("st", reqDirW)]
            { state := "st", code := "abc", idToken := "", clientNonce := "n1", errorDescription := "" }).2 dp =
          (.success a, deleteOIDCRequest (pathCallback envW [("st", reqDirW)]
            { state := "st", code := "abc", idToken := "", clientNonce := "n1", errorDescription := "" }).2 "st") ∧
        ∀ dp2 : PollFields, dp2.state = "st" →
          pathPoll (deleteOIDCRequest (pathCallback envW [("st", reqDirW)] { state := "st", code := "abc", idToken := "", clientNonce := "n1", errorDescription := "" }).2 "st") dp2 =
            (.errResp expiredStateMsg, deleteOIDCRequest (pathCallback envW [("st", reqDirW)] { state := "st", code := "abc", idToken := "", clientNonce := "n1", errorDescription := "" }).2 "st")) := by
  have h := c5_direct_at_most_once envW [("st", reqDirW)]
    { state := "st", code := "abc", idToken := "", clientNonce := "n1", errorDescription := "" }
  constructor
  · exact h.1 { state := "st", clientNonce := "n1" } reqDirW rfl rfl (Or.inr rfl)
  · exact h.2 reqDirW rfl (by decide)

theorem effectiveCode_noCode (x : String) : effectiveCode noCode x = x := by
  simp [effectiveCode]

theorem effectiveCode_self (x : String) : effectiveCode x x = x := by
  unfold effectiveCode
  split <;> rfl

theorem effectiveCode_ne (c x : String) (h : c ≠ noCode) : effectiveCode c x = c := by
  simp [effectiveCode, h]

theorem pathCallbackVerify_code_congr (env : Env) (store : Store) (st c1 c2 : String)
    (cfg : JwtConfig) (role : JwtRole) (u : Bool) (req : OidcRequest)
    (hcode : effectiveCode c1 req.code = effectiveCode c2 req.code) :
    pathCallbackVerify env store st c1 cfg role u req =
      pathCallbackVerify env store st c2 cfg role u req := by
  unfold pathCallbackVerify
  rw [hcode]

theorem pathCallbackChecks_fields_congr (env : Env) (store : Store) (d1 d2 : CallbackFields)
    (cfg : JwtConfig) (role : JwtRole) (u : Bool) (req : OidcRequest)
    (hst : d1.state = d2.state) (hcn : d1.clientNonce = d2.clientNonce)
    (hed : d1.errorDescription = d2.errorDescription)
    (hcode : effectiveCode d1.code req.code = effectiveCode d2.code req.code) :
    pathCallbackChecks env store d1 cfg role u req =
      pathCallbackChecks env store d2 cfg role u req := by
  unfold pathCallbackChecks
  rw [hst, hcn, hed]
  rw [pathCallbackVerify_code_congr env store d2.state d1.code d2.code cfg role u req hcode]

/-- `pathCallbackClaims` produces the same response component for two
requests with the same role name (the stored request influences the response
only through its role name; the stores may differ as well). -/
theorem pathCallbackClaims_fst_req (env : Env) (store1 store2 : Store) (st : String)
    (role : JwtRole) (u : Bool) (req1 req2 : OidcRequest) (raw : String) (tk : Bool)
    (hrn : req1.rolename = req2.rolename) :
    (pathCallbackClaims env store1 st role u req1 raw tk).1 =
      (pathCallbackClaims env store2 st role u req2 raw tk).1 := by
  unfold pathCallbackClaims
  cases env.claimsOf raw with
  | error e => rfl
  | ok claims0 =>
    dsimp only
    by_cases hbs : role.boundSubject ≠ "" ∧
      role.boundSubject ≠ subjectOf (claims0.filter (fun kv => kv.1 ≠ "nonce"))
    · rw [if_pos hbs, if_pos hbs]
    · rw [if_neg hbs, if_neg hbs]
      cases env.createIdentity
        (enrichClaims env (subjectOf (claims0.filter (fun kv => kv.1 ≠ "nonce")))
          (claims0.filter (fun kv => kv.1 ≠ "nonce")) tk) role tk with
      | error e => rfl
      | ok pr =>
        obtain ⟨alias0, gas⟩ := pr
        dsimp only
        cases env.validateBoundClaims role
          (enrichClaims env (subjectOf (claims0.filter (fun kv => kv.1 ≠ "nonce")))
            (claims0.filter (fun kv => kv.1 ≠ "nonce")) tk) with
        | error e => rfl
        | ok u2 =>
          cases u with
          | false => rw [hrn]; rfl
          | true => rfl

theorem pathCallbackVerify_fst_req (env : Env) (store1 store2 : Store) (st dcode : String)
    (cfg : JwtConfig) (role : JwtRole) (u : Bool) (req1 req2 : OidcRequest)
    (h1 : req1.rolename = req2.rolename) (h2 : req1.idToken = req2.idToken)
    (h3 : effectiveCode dcode req1.code = effectiveCode dcode req2.code) :
    (pathCallbackVerify env store1 st dcode cfg role u req1).1 =
      (pathCallbackVerify env store2 st dcode cfg role u req2).1 := by
  unfold pathCallbackVerify
  cases env.getProvider cfg with
  | error e => rfl
  | ok u1 =>
    dsimp only
    rw [h3, h2]
    by_cases hc0 : effectiveCode dcode req2.code = ""
    · rw [if_pos hc0, if_pos hc0]
      by_cases hid : req2.idToken = ""
      · rw [if_pos hid, if_pos hid]
      · rw [if_neg hid, if_neg hid]
        cases env.verifyIDToken req2.idToken with
        | error e => rfl
        | ok u2 =>
          exact pathCallbackClaims_fst_req env store1 store2 st role u req1 req2 req2.idToken false h1
    · rw [if_neg hc0, if_neg hc0]
      cases env.exchange st (effectiveCode dcode req2.code) with
      | error e => rfl
      | ok token =>
        exact pathCallbackClaims_fst_req env store1 store2 st role u req1 req2 token.idToken true h1

theorem pathCallbackChecks_fst_req (env : Env) (store1 store2 : Store) (d : CallbackFields)
    (cfg : JwtConfig) (role : JwtRole) (u : Bool) (req1 req2 : OidcRequest)
    (h1 : req1.rolename = req2.rolename) (h2 : req1.idToken = req2.idToken)
    (h3 : effectiveCode d.code req1.code = effectiveCode d.code req2.code)
    (h4 : req1.clientNonce = req2.clientNonce) :
    (pathCallbackChecks env store1 d cfg role u req1).1 =
      (pathCallbackChecks env store2 d cfg role u req2).1 := by
  unfold pathCallbackChecks
  rw [h4]
  by_cases hd : d.errorDescription ≠ ""
  · rw [if_pos hd, if_pos hd]
  · rw [if_neg hd, if_neg hd]
    by_cases hn : req2.clientNonce ≠ "" ∧ d.clientNonce ≠ req2.clientNonce ∧ u = false
    · rw [if_pos hn, if_pos hn]
    · rw [if_neg hn, if_neg hn]
      by_cases hcidr : role.tokenBoundCIDRs.length > 0
      · rw [if_pos hcidr, if_pos hcidr]
        cases env.remoteAddr with
        | none => rfl
        | some addr =>
          dsimp only
          by_cases hok : env.cidrOk addr role.tokenBoundCIDRs = false
          · rw [if_pos hok, if_pos hok]
          · rw [if_neg hok, if_neg hok]
            exact pathCallbackVerify_fst_req env store1 store2 d.state d.code cfg role u req1 req2 h1 h2 h3
      · rw [if_neg hcidr, if_neg hcidr]
        exact pathCallbackVerify_fst_req env store1 store2 d.state d.code cfg role u req1 req2 h1 h2 h3

theorem pathCallbackPost_stores (env : Env) (store : Store) (cfg : JwtConfig)
    (dpost : CallbackPostFields) (req : OidcRequest)
    (hc : env.configRes = .ok (some cfg))
    (hmode : cfg.oidcResponseMode = responseModeFormPost)
    (hq : getOIDCRequest store dpost.state = some req) :
    (pathCallbackPost env store dpost).2 =
      setOIDCRequest store dpost.state { req with code := dpost.code, idToken := dpost.idToken } ∧
    getOIDCRequest (pathCallbackPost env store dpost).2 dpost.state =
      some { req with code := dpost.code, idToken := dpost.idToken } := by
  have hsnd : (pathCallbackPost env store dpost).2 =
      setOIDCRequest store dpost.state { req with code := dpost.code, idToken := dpost.idToken } := by
    unfold pathCallbackPost
    rw [hc]
    dsimp only
    rw [if_neg (by simp [hmode])]
    rw [hq]
    dsimp only
    by_cases hm : parseMount req.redirectURL = ""
    · rw [if_pos hm]
    · rw [if_neg hm]
  refine ⟨hsnd, ?_⟩
  rw [hsnd]
  exact getOIDCRequest_set_self ..

/-- C10: the `no_code` sentinel.  A callback whose `code` field is the
literal "no_code" behaves exactly like one supplying the code stored on the
request (which `pathCallbackPost` populates: third conjunct); a `code` other
than "no_code" is used as supplied — the stored code is then irrelevant to
the response (second conjunct). -/
theorem c10_no_code_sentinel (env : Env) (store : Store) (d : CallbackFields)
    (req : OidcRequest) (x : String)
    (hq : getOIDCRequest store d.state = some req) :
    pathCallback env store { d with code := noCode } =
      pathCallback env store { d with code := req.code } ∧
    (d.code ≠ noCode →
      (pathCallback env (setOIDCRequest store d.state { req with code := x }) d).1 =
        (pathCallback env (setOIDCRequest store d.state req) d).1) ∧
    (∀ (dpost : CallbackPostFields) (cfg : JwtConfig), env.configRes = .ok (some cfg) →
      cfg.oidcResponseMode = responseModeFormPost → dpost.state = d.state →
      getOIDCRequest (pathCallbackPost env store dpost).2 d.state =
        some { req with code := dpost.code, idToken := dpost.idToken }) := by
  refine ⟨?_, ?_, ?_⟩
  · unfold pathCallback
    cases env.configRes with
    | error e => rfl
    | ok oc =>
      cases oc with
      | none => rfl
      | some cfg =>
        dsimp only
        rw [hq]
        dsimp only
        by_cases ha : req.auth ≠ none
        · rw [if_pos ha, if_pos ha]
        · rw [if_neg ha, if_neg ha]
          cases env.roleOf req.rolename with
          | error e => rfl
          | ok orole =>
            cases orole with
            | none => rfl
            | some role =>
              dsimp only
              exact pathCallbackChecks_fields_congr env _ _ _ cfg role _ req rfl rfl rfl
                (by rw [effectiveCode_noCode, effectiveCode_self])
  · intro hx
    unfold pathCallback
    cases env.configRes with
    | error e => rfl
    | ok oc =>
      cases oc with
      | none => rfl
      | some cfg =>
        dsimp only
        rw [getOIDCRequest_set_self store d.state { req with code := x },
          getOIDCRequest_set_self store d.state req]
        dsimp only
        by_cases ha : req.auth ≠ none
        · rw [if_pos ha, if_pos ha]
        · rw [if_neg ha, if_neg ha]
          cases env.roleOf req.rolename with
          | error e => rfl
          | ok orole =>
            cases orole with
            | none => rfl
            | some role =>
              dsimp only
              exact pathCallbackChecks_fst_req env _ _ d cfg role _
                { req with code := x } req rfl rfl
                (by rw [effectiveCode_ne _ _ hx, effectiveCode_ne _ _ hx]) rfl
  · intro dpost cfg hc hmode hst
    have h := pathCallbackPost_stores env store cfg dpost req hc hmode (by rw [hst]; exact hq)
    rw [← hst]
    exact h.2

/-- C10 witness: a form-post store hop followed by the `no_code` second hop,
and the stored-code irrelevance for an explicit code. -/
theorem c10_no_code_sentinel_witness :
    pathCallback envFormPostW [("st", reqDirW)]
      { state := "st", code := noCode, idToken := "", clientNonce := "n1", errorDescription := "" } =
      pathCallback envFormPostW [("st", reqDirW)]
      { state := "st", code := reqDirW.code, idToken := "", clientNonce := "n1", errorDescription := "" } ∧
    getOIDCRequest (pathCallbackPost envFormPostW [("st", reqDirW)]
      { state := "st", code := "real-code", idToken := "" }).2 "st" =
      some { reqDirW with code := "real-code", idToken := "" } := by
  have h := c10_no_code_sentinel envFormPostW [("st", reqDirW)]
    { state := "st", code := noCode, idToken := "", clientNonce := "n1", errorDescription := "" }
    reqDirW "other" rfl
  constructor
  · exact h.1
  · exact h.2.2 { state := "st", code := "real-code", idToken := "" } cfgFormPostW rfl rfl rfl

theorem authURLPostNonce_ok (env : Env) (store : Store) (d : AuthURLFields)
    (cfg : JwtConfig) (role : JwtRole) (rn : String) :
    ∃ u s p, (authURLPostNonce env store d cfg role rn).1 = AuthURLResult.ok u s p := by
  unfold authURLPostNonce
  cases namespaceProcess cfg d.redirectUri with
  | none => exact ⟨_, _, _, rfl⟩
  | some pr =>
    obtain ⟨uri1, ns⟩ := pr
    dsimp only
    split
    · exact ⟨_, _, _, rfl⟩
    · cases env.getProvider cfg with
      | error e => exact ⟨_, _, _, rfl⟩
      | ok u1 =>
        dsimp only
        cases createOIDCRequest env cfg role rn
            (if cfg.oidcResponseMode = responseModeFormPost then replaceOnce uri1 "ui/vault" "v1"
             else uri1) d.clientNonce store with
        | error e => exact ⟨_, _, _, rfl⟩
        | ok pr2 =>
          obtain ⟨st, store2⟩ := pr2
          dsimp only
          cases env.authURLGen st with
          | error e => exact ⟨_, _, _, rfl⟩
          | ok urlStr =>
            dsimp only
            split
            · exact ⟨_, _, _, rfl⟩
            · exact ⟨_, _, _, rfl⟩

/-- C1 (amended): in `authURL`, once the config/role preconditions pass, a
missing `client_nonce` is rejected exactly when the role's callback mode is
not *client* mode: with the callback mode client an empty nonce is accepted,
and with any other callback mode (in particular direct) an empty nonce fails
with "missing client_nonce". -/
theorem c1_missing_nonce_iff_not_client (env : Env) (store : Store) (d : AuthURLFields)
    (cfg : JwtConfig) (role : JwtRole)
    (hc : env.configRes = .ok (some cfg))
    (hf : cfg.isOIDCFlow = true)
    (hrn : (if d.role = "" then cfg.defaultRole else d.role) ≠ "")
    (hru : d.redirectUri ≠ "")
    (hrole : env.roleOf (if d.role = "" then cfg.defaultRole else d.role) = .ok (some role)) :
    (authURL env store d).1 = .errResp "missing client_nonce" ↔
      d.clientNonce = "" ∧ role.callbackMode ≠ callbackModeClient := by
  unfold authURL
  rw [hc]
  dsimp only
  rw [if_neg (by simp [hf])]
  rw [if_neg hrn, if_neg hru, hrole]
  dsimp only
  by_cases hcond : d.clientNonce = "" ∧ role.callbackMode ≠ callbackModeClient
  · rw [if_pos hcond]
    simp [hcond]
  · rw [if_neg hcond]
    obtain ⟨u, s, p, hok⟩ := authURLPostNonce_ok env store d cfg role
      (if d.role = "" then cfg.defaultRole else d.role)
    rw [hok]
    simp [hcond]

/-- C1 witness: both directions at concrete inputs — an empty nonce with a
direct-mode role is rejected; an empty nonce with a client-mode role is not
rejected with "missing client_nonce". -/
theorem c1_missing_nonce_iff_not_client_witness :
    (authURL envW [] { role := "dir", redirectUri := "https://example.com/cb", clientNonce := "" }).1 =
      .errResp "missing client_nonce" ∧
    ¬(authURL envW [] { role := "cli", redirectUri := "https://example.com/cb", clientNonce := "" }).1 =
      .errResp "missing client_nonce" := by
  constructor
  · exact (c1_missing_nonce_iff_not_client envW []
      { role := "dir", redirectUri := "https://example.com/cb", clientNonce := "" }
      cfgW roleDirW rfl rfl (by decide) (by decide) rfl).mpr ⟨rfl, by decide⟩
  · intro h
    have := (c1_missing_nonce_iff_not_client envW []
      { role := "cli", redirectUri := "https://example.com/cb", clientNonce := "" }
      cfgW roleCliW rfl rfl (by decide) (by decide) rfl).mp h
    exact this.2 rfl

/-- C1 counterexample: a role in direct-callback mode with an empty client
nonce is rejected with "missing client_nonce", contradicting the claim that
a missing nonce is rejected exactly when the role is *not* configured for
direct-callback mode. -/
theorem c1_missing_nonce_counterexample :
    roleDirW.callbackMode = callbackModeDirect ∧
    (authURL envW [] { role := "dir", redirectUri := "https://example.com/cb", clientNonce := "" }).1 =
      .errResp "missing client_nonce" := by
  exact ⟨rfl, by decide⟩

theorem createOIDCRequest_err_verifier (env : Env) (cfg : JwtConfig) (role : JwtRole)
    (rn uri cn : String) (store : Store) (e : String)
    (hid : cfg.hasTypeIDToken = false) (hcode : cfg.hasTypeCode = true)
    (hv : env.newCodeVerifier = .error e) :
    ∃ e2, createOIDCRequest env cfg role rn uri cn store = .error e2 := by
  unfold createOIDCRequest
  rw [hid, hcode, hv]
  dsimp only
  exact ⟨_, rfl⟩

theorem createOIDCRequest_err_newreq (env : Env) (cfg : JwtConfig) (role : JwtRole)
    (rn uri cn : String) (store : Store) (e : String)
    (hr : env.newRequestState = .error e) :
    ∃ e2, createOIDCRequest env cfg role rn uri cn store = .error e2 := by
  unfold createOIDCRequest
  split
  · exact ⟨_, rfl⟩
  · rw [hr]
    exact ⟨_, rfl⟩

theorem createOIDCRequest_ok_state (env : Env) (cfg : JwtConfig) (role : JwtRole)
    (rn uri cn : String) (store : Store) (st : String) (store2 : Store)
    (h : createOIDCRequest env cfg role rn uri cn store = .ok (st, store2)) :
    env.newRequestState = .ok st := by
  unfold createOIDCRequest at h
  split at h
  · exact absurd h (by simp)
  · revert h
    cases hnr : env.newRequestState with
    | error e => intro h; exact absurd h (by simp)
    | ok st2 =>
      intro h
      dsimp only at h
      rw [Except.ok.injEq, Prod.mk.injEq] at h
      rw [h.1]

theorem authURLPostNonce_validation_fail (env : Env) (store : Store) (d : AuthURLFields)
    (cfg : JwtConfig) (role : JwtRole) (rn uri1 ns : String)
    (hns : namespaceProcess cfg d.redirectUri = some (uri1, ns))
    (hval : validRedirect uri1 role.allowedRedirectURIs = false) :
    (authURLPostNonce env store d cfg role rn).1 = .ok "" none none := by
  unfold authURLPostNonce
  rw [hns]
  dsimp only
  rw [if_pos hval]

theorem authURLPostNonce_provider_fail (env : Env) (store : Store) (d : AuthURLFields)
    (cfg : JwtConfig) (role : JwtRole) (rn e : String)
    (hp : env.getProvider cfg = .error e) :
    (authURLPostNonce env store d cfg role rn).1 = .ok "" none none := by
  unfold authURLPostNonce
  cases namespaceProcess cfg d.redirectUri with
  | none => rfl
  | some pr =>
    obtain ⟨uri1, ns⟩ := pr
    dsimp only
    split
    · rfl
    · rw [hp]

theorem authURLPostNonce_create_fail (env : Env) (store : Store) (d : AuthURLFields)
    (cfg : JwtConfig) (role : JwtRole) (rn : String)
    (hcf : ∀ uri, ∃ e2, createOIDCRequest env cfg role rn uri d.clientNonce store = .error e2) :
    (authURLPostNonce env store d cfg role rn).1 = .ok "" none none := by
  unfold authURLPostNonce
  cases namespaceProcess cfg d.redirectUri with
  | none => rfl
  | some pr =>
    obtain ⟨uri1, ns⟩ := pr
    dsimp only
    split
    · rfl
    · cases env.getProvider cfg with
      | error e => rfl
      | ok u1 =>
        dsimp only
        obtain ⟨e2, he⟩ := hcf
          (if cfg.oidcResponseMode = responseModeFormPost then replaceOnce uri1 "ui/vault" "v1"
           else uri1)
        rw [he]

theorem authURLPostNonce_gen_fail (env : Env) (store : Store) (d : AuthURLFields)
    (cfg : JwtConfig) (role : JwtRole) (rn st e : String)
    (hst : env.newRequestState = .ok st)
    (hg : env.authURLGen st = .error e) :
    (authURLPostNonce env store d cfg role rn).1 = .ok "" none none := by
  unfold authURLPostNonce
  cases namespaceProcess cfg d.redirectUri with
  | none => rfl
  | some pr =>
    obtain ⟨uri1, ns⟩ := pr
    dsimp only
    split
    · rfl
    · cases env.getProvider cfg with
      | error e1 => rfl
      | ok u1 =>
        dsimp only
        cases hcr : createOIDCRequest env cfg role rn
            (if cfg.oidcResponseMode = responseModeFormPost then replaceOnce uri1 "ui/vault" "v1"
             else uri1) d.clientNonce store with
        | error e2 => rfl
        | ok pr2 =>
          obtain ⟨st2, store2⟩ := pr2
          dsimp only
          have hst2 : env.newRequestState = .ok st2 :=
            createOIDCRequest_ok_state env cfg role rn _ d.clientNonce store st2 store2 hcr
          rw [hst] at hst2
          rw [Except.ok.injEq] at hst2
          rw [← hst2, hg]

theorem authURL_reach (env : Env) (store : Store) (d : AuthURLFields)
    (cfg : JwtConfig) (role : JwtRole)
    (hc : env.configRes = .ok (some cfg))
    (hf : cfg.isOIDCFlow = true)
    (hrn : (if d.role = "" then cfg.defaultRole else d.role) ≠ "")
    (hru : d.redirectUri ≠ "")
    (hrole : env.roleOf (if d.role = "" then cfg.defaultRole else d.role) = .ok (some role))
    (hn : ¬(d.clientNonce = "" ∧ role.callbackMode ≠ callbackModeClient)) :
    authURL env store d =
      authURLPostNonce env store d cfg role (if d.role = "" then cfg.defaultRole else d.role) := by
  unfold authURL
  rw [hc]
  dsimp only
  rw [if_neg (by simp [hf])]
  rw [if_neg hrn, if_neg hru, hrole]
  dsimp only
  rw [if_neg hn]

/-- C8: `authURL` degrades to a successful response with an empty `auth_url`
(and no state/poll-interval data) whenever the (namespace-processed)
redirect URI fails validation against the role's allow-list, and likewise
whenever an internal step fails: provider construction, request creation
(code-verifier generation or `oidc.NewRequest`), or auth-URL generation.
No descriptive error response is returned in any of these cases. -/
theorem c8_degrades_to_empty_auth_url (env : Env) (store : Store) (d : AuthURLFields)
    (cfg : JwtConfig) (role : JwtRole)
    (hc : env.configRes = .ok (some cfg))
    (hf : cfg.isOIDCFlow = true)
    (hrn : (if d.role = "" then cfg.defaultRole else d.role) ≠ "")
    (hru : d.redirectUri ≠ "")
    (hrole : env.roleOf (if d.role = "" then cfg.defaultRole else d.role) = .ok (some role))
    (hn : ¬(d.clientNonce = "" ∧ role.callbackMode ≠ callbackModeClient)) :
    ((∃ uri1 ns, namespaceProcess cfg d.redirectUri = some (uri1, ns) ∧
        validRedirect uri1 role.allowedRedirectURIs = false) →
      (authURL env store d).1 = .ok "" none none) ∧
    (∀ e, env.getProvider cfg = .error e → (authURL env store d).1 = .ok "" none none) ∧
    (∀ e, cfg.hasTypeIDToken = false → cfg.hasTypeCode = true →
      env.newCodeVerifier = .error e → (authURL env store d).1 = .ok "" none none) ∧
    (∀ e, env.newRequestState = .error e → (authURL env store d).1 = .ok "" none none) ∧
    (∀ st e, env.newRequestState = .ok st → env.authURLGen st = .error e →
      (authURL env store d).1 = .ok "" none none) := by
  have hreach := authURL_reach env store d cfg role hc hf hrn hru hrole hn
  refine ⟨?_, ?_, ?_, ?_, ?_⟩
  · rintro ⟨uri1, ns, hns, hval⟩
    rw [hreach]
    exact authURLPostNonce_validation_fail env store d cfg role _ uri1 ns hns hval
  · intro e hp
    rw [hreach]
    exact authURLPostNonce_provider_fail env store d cfg role _ e hp
  · intro e hid hcode hv
    rw [hreach]
    exact authURLPostNonce_create_fail env store d cfg role _
      (fun uri => createOIDCRequest_err_verifier env cfg role _ uri d.clientNonce store e hid hcode hv)
  · intro e hr
    rw [hreach]
    exact authURLPostNonce_create_fail env store d cfg role _
      (fun uri => createOIDCRequest_err_newreq env cfg role _ uri d.clientNonce store e hr)
  · intro st e hst hg
    rw [hreach]
    exact authURLPostNonce_gen_fail env store d cfg role _ st e hst hg

/-- C8 witness: an unauthorized redirect URI, a failing provider, and a
failing auth-URL generation all yield the empty-auth-url success response. -/
theorem c8_degrades_to_empty_auth_url_witness :
    (authURL envW [] { role := "dir", redirectUri := "https://evil.example/cb", clientNonce := "n" }).1 =
      .ok "" none none ∧
    (authURL envProvFailW []
      { role := "dir", redirectUri := "https://example.com/v1/auth/m/oidc/callback", clientNonce := "n" }).1 =
      .ok "" none none ∧
    (authURL envGenFailW []
      { role := "dir", redirectUri := "https://example.com/v1/auth/m/oidc/callback", clientNonce := "n" }).1 =
      .ok "" none none := by
  refine ⟨?_, ?_, ?_⟩
  · exact (c8_degrades_to_empty_auth_url envW []
      { role := "dir", redirectUri := "https://evil.example/cb", clientNonce := "n" }
      cfgW roleDirW rfl rfl (by decide) (by decide) rfl (by simp)).1
      ⟨"https://evil.example/cb", "", rfl, by decide⟩
  · exact (c8_degrades_to_empty_auth_url envProvFailW []
      { role := "dir", redirectUri := "https://example.com/v1/auth/m/oidc/callback", clientNonce := "n" }
      cfgW roleDirW rfl rfl (by decide) (by decide) rfl (by simp)).2.1 "provider down" rfl
  · exact (c8_degrades_to_empty_auth_url envGenFailW []
      { role := "dir", redirectUri := "https://example.com/v1/auth/m/oidc/callback", clientNonce := "n" }
      cfgW roleDirW rfl rfl (by decide) (by decide) rfl (by simp)).2.2.2.2 "state1" "no url" rfl rfl

theorem validRedirectLoop_abort (inputURI : GoURL) (pre : List String) (bad : String)
    (rest : List String)
    (hbad : goURLParse bad = none)
    (hpre : ∀ a ∈ pre, ∃ ua, goURLParse a = some ua ∧
      urlString inputURI ≠ urlString { ua with host := urlHostname ua }) :
    validRedirectLoop inputURI (pre ++ bad :: rest) = false := by
  induction pre with
  | nil =>
    rw [List.nil_append]
    unfold validRedirectLoop
    rw [hbad]
  | cons a pre2 ih =>
    obtain ⟨ua, hua, hne⟩ := hpre a (List.mem_cons_self a pre2)
    rw [List.cons_append]
    unfold validRedirectLoop
    rw [hua]
    dsimp only
    rw [if_neg hne]
    exact ih (fun b hb => hpre b (List.mem_cons_of_mem a hb))

theorem validRedirectLoop_mem (inputURI : GoURL) (pre : List String) (a : String)
    (ua : GoURL) (rest : List String)
    (hpre : ∀ b ∈ pre, ∃ ub, goURLParse b = some ub)
    (ha : goURLParse a = some ua)
    (heq : urlString inputURI = urlString { ua with host := urlHostname ua }) :
    validRedirectLoop inputURI (pre ++ a :: rest) = true := by
  induction pre with
  | nil =>
    rw [List.nil_append]
    unfold validRedirectLoop
    rw [ha]
    dsimp only
    rw [if_pos heq]
  | cons b pre2 ih =>
    obtain ⟨ub, hub⟩ := hpre b (List.mem_cons_self b pre2)
    rw [List.cons_append]
    unfold validRedirectLoop
    rw [hub]
    dsimp only
    by_cases h : urlString inputURI = urlString { ub with host := urlHostname ub }
    · rw [if_pos h]
    · rw [if_neg h]
      exact ih (fun c hc => hpre c (List.mem_cons_of_mem b hc))

/-- C2 (amended): for a loopback candidate, a malformed (unparsable)
allow-list entry is treated as a fatal non-match: as soon as the scan
reaches it, `validRedirect` returns `false` for the whole call, so a
malformed entry preceding a matching entry prevents the match (entries after
it are never examined). -/
theorem c2_malformed_entry_aborts (uri : String) (u : GoURL) (pre : List String)
    (bad : String) (rest : List String)
    (hp : goURLParse uri = some u)
    (hl : strListContains ["localhost", "127.0.0.1", "::1"] (urlHostname u) = true)
    (hbad : goURLParse bad = none)
    (hpre : ∀ a ∈ pre, ∃ ua, goURLParse a = some ua ∧
      urlString { u with host := urlHostname u } ≠ urlString { ua with host := urlHostname ua }) :
    validRedirect uri (pre ++ bad :: rest) = false := by
  unfold validRedirect
  rw [hp]
  dsimp only
  rw [if_neg (by simp [hl])]
  exact validRedirectLoop_abort _ pre bad rest hbad hpre

/-- C2 witness: a malformed entry ahead of a matching entry makes the whole
validation fail. -/
theorem c2_malformed_entry_aborts_witness :
    validRedirect "http://localhost:1/a" ["://y", "http://localhost:2/a"] = false := by
  have h := c2_malformed_entry_aborts "http://localhost:1/a" uLoopW []
    "://y" ["http://localhost:2/a"] (by decide) (by decide) (by decide)
    (fun a ha => absurd ha (List.not_mem_nil a))
  simpa using h

/-- C2 counterexample: the result on an allow-list with a malformed entry
differs from the result on the same list with the malformed entries removed
— a malformed entry preceding a valid matching entry does prevent the match. -/
theorem c2_malformed_entry_counterexample :
    goURLParse "://x" = none ∧
    validRedirect "http://127.0.0.1:4321/cb" ["://x", "http://127.0.0.1:9999/cb"] = false ∧
    validRedirect "http://127.0.0.1:4321/cb"
      (["://x", "http://127.0.0.1:9999/cb"].filter (fun a => (goURLParse a).isSome)) = true ∧
    validRedirect "http://127.0.0.1:4321/cb" ["://x", "http://127.0.0.1:9999/cb"] ≠
      validRedirect "http://127.0.0.1:4321/cb"
        (["://x", "http://127.0.0.1:9999/cb"].filter (fun a => (goURLParse a).isSome)) := by
  refine ⟨by decide, by decide, by decide, by decide⟩

/-- C7 (amended): a candidate whose host is not a recognized loopback name
validates exactly when the candidate string is a member of the allow-list; a
loopback candidate validates when it equals an allow-list entry after
stripping the port from both sides, provided every earlier entry is
well-formed; `http://127.0.0.1:4321/cb` validates against the allow-list
`[http://127.0.0.1:9999/cb]`; a malformed candidate never validates. -/
theorem c7_redirect_validation :
    (∀ uri u allowed, goURLParse uri = some u →
      strListContains ["localhost", "127.0.0.1", "::1"] (urlHostname u) = false →
      (validRedirect uri allowed = true ↔ uri ∈ allowed)) ∧
    (∀ uri u pre a ua rest, goURLParse uri = some u →
      strListContains ["localhost", "127.0.0.1", "::1"] (urlHostname u) = true →
      (∀ b ∈ pre, ∃ ub, goURLParse b = some ub) →
      goURLParse a = some ua →
      urlString { u with host := urlHostname u } = urlString { ua with host := urlHostname ua } →
      validRedirect uri (pre ++ a :: rest) = true) ∧
    validRedirect "http://127.0.0.1:4321/cb" ["http://127.0.0.1:9999/cb"] = true ∧
    (∀ uri allowed, goURLParse uri = none → validRedirect uri allowed = false) := by
  refine ⟨?_, ?_, by decide, ?_⟩
  · intro uri u allowed hp hnl
    unfold validRedirect
    rw [hp]
    dsimp only
    rw [if_pos (by simp [hnl])]
    exact strListContains_iff allowed uri
  · intro uri u pre a ua rest hp hl hpre ha heq
    unfold validRedirect
    rw [hp]
    dsimp only
    rw [if_neg (by simp [hl])]
    exact validRedirectLoop_mem _ pre a ua rest hpre ha heq
  · intro uri allowed hp
    unfold validRedirect
    rw [hp]

/-- C7 witness: exact membership for a non-loopback candidate, the
port-agnostic loopback match, and a malformed candidate. -/
theorem c7_redirect_validation_witness :
    validRedirect "https://evil.example/cb" ["https://evil.example/cb"] = true ∧
    validRedirect "http://localhost:1/a" ["http://localhost:2/a"] = true ∧
    validRedirect "://x" ["://x"] = false := by
  refine ⟨?_, ?_, ?_⟩
  · exact (c7_redirect_validation.1 "https://evil.example/cb" uEvilW
      ["https://evil.example/cb"] (by decide) (by decide)).mpr (by decide)
  · have h := c7_redirect_validation.2.1 "http://localhost:1/a" uLoopW []
      "http://localhost:2/a" { uLoopW with host := "localhost:2", path := "/a" } []
      (by decide) (by decide) (fun b hb => absurd hb (List.not_mem_nil b)) (by decide) (by decide)
    simpa using h
  · exact c7_redirect_validation.2.2.2 "://x" ["://x"] (by decide)

/-- C7 counterexample: a loopback candidate that equals an allow-list entry
after stripping the port from both sides, yet does not validate, because a
malformed entry precedes the matching one — the claim's "validates if it
equals an allow-list entry after stripping the port" is not unconditional. -/
theorem c7_redirect_validation_counterexample :
    goURLParse "http://localhost:4321/cb" = some uLoop4321 ∧
    strListContains ["localhost", "127.0.0.1", "::1"] (urlHostname uLoop4321) = true ∧
    goURLParse "http://localhost:9999/cb" = some uLoop9999 ∧
    urlString { uLoop4321 with host := urlHostname uLoop4321 } =
      urlString { uLoop9999 with host := urlHostname uLoop9999 } ∧
    validRedirect "http://localhost:4321/cb" ["://e", "http://localhost:9999/cb"] = false := by
  refine ⟨by decide, by decide, by decide, by decide, by decide⟩

theorem findMount_cons_step (a b : String) (t : List String) (ht : t ≠ [])
    (hne : ¬(a = "v1" ∧ b = "auth")) :
    findMount (a :: b :: t) = findMount (b :: t) := by
  cases t with
  | nil => exact absurd rfl ht
  | cons c rest =>
    conv_lhs => rw [findMount]
    rw [if_neg hne]

theorem findMount_first_occurrence (pre : List String) (m : String) (rest : List String)
    (h : ∀ i, i < pre.length →
      ¬((pre ++ "v1" :: "auth" :: m :: rest).get? i = some "v1" ∧
        (pre ++ "v1" :: "auth" :: m :: rest).get? (i + 1) = some "auth")) :
    findMount (pre ++ "v1" :: "auth" :: m :: rest) = m := by
  induction pre with
  | nil =>
    rw [List.nil_append]
    unfold findMount
    rw [if_pos ⟨rfl, rfl⟩]
  | cons p pre2 ih =>
    rw [List.cons_append]
    have hstep : findMount (p :: (pre2 ++ "v1" :: "auth" :: m :: rest)) =
        findMount (pre2 ++ "v1" :: "auth" :: m :: rest) := by
      cases pre2 with
      | nil =>
        rw [List.nil_append]
        exact findMount_cons_step p "v1" ("auth" :: m :: rest) (by simp)
          (by rintro ⟨h1, h2⟩; exact absurd h2 (by decide))
      | cons b pre3 =>
        rw [List.cons_append]
        refine findMount_cons_step p b (pre3 ++ "v1" :: "auth" :: m :: rest) (by simp) ?_
        rintro ⟨hp, hb⟩
        exact h 0 (by simp) ⟨by simp [hp], by simp [hb]⟩
    rw [hstep]
    refine ih ?_
    intro i hi
    rintro ⟨h1, h2⟩
    refine h (i + 1) (by simpa using Nat.succ_lt_succ hi) ?_
    constructor
    · rw [List.cons_append, List.get?_cons_succ]
      exact h1
    · rw [List.cons_append, List.get?_cons_succ]
      exact h2

theorem findMount_no_occurrence (parts : List String)
    (h : ∀ i, i + 2 < parts.length →
      ¬(parts.get? i = some "v1" ∧ parts.get? (i + 1) = some "auth")) :
    findMount parts = "" := by
  induction parts with
  | nil => rfl
  | cons a t ih =>
    cases t with
    | nil => rfl
    | cons b t2 =>
      cases t2 with
      | nil => rfl
      | cons c rest =>
        rw [findMount_cons_step a b (c :: rest) (by simp)
          (by rintro ⟨h1, h2⟩; exact h 0 (by simp) ⟨by simp [h1], by simp [h2]⟩)]
        refine ih ?_
        intro i hi
        rintro ⟨h1, h2⟩
        refine h (i + 1) (by simp at hi ⊢; omega) ?_
        exact ⟨by rw [List.get?_cons_succ]; exact h1, by rw [List.get?_cons_succ]; exact h2⟩

/-- C9: `parseMount` splits the redirect URI on "/" and, scanning left to
right, returns the segment after the first occurrence of consecutive
segments "v1", "auth" followed by a third segment; with no such occurrence
it returns the empty string; `https://host/v1/auth/jwt-test/oidc/callback`
resolves to `jwt-test`. -/
theorem c9_parse_mount :
    (∀ (uri : String) pre m rest,
      (splitAllChar '/' uri.data).map String.mk = pre ++ "v1" :: "auth" :: m :: rest →
      (∀ i, i < pre.length →
        ¬((pre ++ "v1" :: "auth" :: m :: rest).get? i = some "v1" ∧
          (pre ++ "v1" :: "auth" :: m :: rest).get? (i + 1) = some "auth")) →
      parseMount uri = m) ∧
    (∀ (uri : String),
      (∀ i, i + 2 < ((splitAllChar '/' uri.data).map String.mk).length →
        ¬(((splitAllChar '/' uri.data).map String.mk).get? i = some "v1" ∧
          ((splitAllChar '/' uri.data).map String.mk).get? (i + 1) = some "auth")) →
      parseMount uri = "") ∧
    parseMount "https://host/v1/auth/jwt-test/oidc/callback" = "jwt-test" ∧
    parseMount "https://host/auth/v1/jwt-test" = "" := by
  refine ⟨?_, ?_, by decide, by decide⟩
  · intro uri pre m rest hsplit h
    unfold parseMount
    rw [hsplit]
    exact findMount_first_occurrence pre m rest h
  · intro uri h
    unfold parseMount
    exact findMount_no_occurrence _ h

/-- C9 witness: the first-occurrence rule applied to the concrete callback
URI, and the no-occurrence rule applied to a URI without the segment
sequence. -/
theorem c9_parse_mount_witness :
    parseMount "https://host/v1/auth/jwt-test/oidc/callback" = "jwt-test" ∧
    parseMount "https://host/x/y" = "" := by
  constructor
  · refine c9_parse_mount.1 "https://host/v1/auth/jwt-test/oidc/callback"
      ["https:", "", "host"] "jwt-test" ["oidc", "callback"] (by decide) ?_
    intro i hi
    have h3 : i < 3 := by simpa using hi
    interval_cases i <;> decide
  · refine c9_parse_mount.2.1 "https://host/x/y" ?_
    intro i hi
    have : ((splitAllChar '/' "https://host/x/y".data).map String.mk).length = 5 := by decide
    rw [this] at hi
    have h3 : i < 3 := by omega
    interval_cases i <;> decide
